import Mathlib

/-!
Verification of the anchor-labeling core of the kuzushiji_ml repository
(`src/labeling.py`), as a shallow embedding over the rationals.

Python floats are modelled by `ℚ`; the `1e-6` additive guard in the IoU
denominator is the exact rational `1/1000000`.  `np.log` (used only inside
the regression targets, whose exact value no claim inspects) is abstracted
by an arbitrary parameter `qlog : ℚ → ℚ`, keeping the development
executable.  The dense numpy tensors are modelled as total functions from
indices, updated pointwise; every loop of the source is a `List.foldl`
over the same index range in the same order.
-/

namespace KuzushijiML

/-- An axis-aligned box `(x1, y1, x2, y2)`, the argument format of `iou`
in `src/labeling.py` ("a and b should be (x1,y1,x2,y2)"). -/
structure Box where
  x1 : ℚ
  y1 : ℚ
  x2 : ℚ
  y2 : ℚ
deriving DecidableEq

/-- `union` helper nested in `iou` (`labeling.py` lines 40-44):
`area_a + area_b - area_intersection`. -/
def unionArea (au bu : Box) (area_intersection : ℚ) : ℚ :=
  (au.x2 - au.x1) * (au.y2 - au.y1) + (bu.x2 - bu.x1) * (bu.y2 - bu.y1) - area_intersection

/-- `intersection` helper nested in `iou` (`labeling.py` lines 46-53):
with `x = max ai.x1 bi.x1`, `y = max ai.y1 bi.y1`, `w = min ai.x2 bi.x2 - x`
and `h = min ai.y2 bi.y2 - y`, return `0` if `w < 0 ∨ h < 0`, else `w * h`. -/
def intersectionArea (ai bi : Box) : ℚ :=
  if min ai.x2 bi.x2 - max ai.x1 bi.x1 < 0 ∨ min ai.y2 bi.y2 - max ai.y1 bi.y1 < 0 then 0
  else (min ai.x2 bi.x2 - max ai.x1 bi.x1) * (min ai.y2 bi.y2 - max ai.y1 bi.y1)

/-- `iou` (`labeling.py` lines 38-63): degenerate inputs return `0.0`,
otherwise intersection over union with a `1e-6` additive denominator guard. -/
def iou (a b : Box) : ℚ :=
  if a.x1 ≥ a.x2 ∨ a.y1 ≥ a.y2 ∨ b.x1 ≥ b.x2 ∨ b.y1 ≥ b.y2 then 0
  else
    let area_i := intersectionArea a b
    let area_u := unionArea a b area_i
    area_i / (area_u + 1 / 1000000)

/-- A box is non-degenerate ("valid" in the spec's words) when both extents
are strictly positive. -/
def Nondegenerate (a : Box) : Prop := a.x1 < a.x2 ∧ a.y1 < a.y2

instance (a : Box) : Decidable (Nondegenerate a) := by
  unfold Nondegenerate; infer_instance

/-- Area of a box, as computed inside `union`. -/
def boxArea (a : Box) : ℚ := (a.x2 - a.x1) * (a.y2 - a.y1)

lemma intersectionArea_nonneg (a b : Box) : 0 ≤ intersectionArea a b := by
  unfold intersectionArea
  split_ifs with h
  · exact le_refl 0
  · push_neg at h
    exact mul_nonneg h.1 h.2

lemma intersectionArea_comm (a b : Box) : intersectionArea a b = intersectionArea b a := by
  unfold intersectionArea
  rw [max_comm a.x1 b.x1, max_comm a.y1 b.y1, min_comm a.x2 b.x2, min_comm a.y2 b.y2]

lemma intersectionArea_le_left (a b : Box) (ha : Nondegenerate a) :
    intersectionArea a b ≤ boxArea a := by
  unfold intersectionArea boxArea
  split_ifs with h
  · have hx : 0 < a.x2 - a.x1 := by linarith [ha.1]
    have hy : 0 < a.y2 - a.y1 := by linarith [ha.2]
    positivity
  · push_neg at h
    have hw : min a.x2 b.x2 - max a.x1 b.x1 ≤ a.x2 - a.x1 := by
      have h1 : min a.x2 b.x2 ≤ a.x2 := min_le_left _ _
      have h2 : a.x1 ≤ max a.x1 b.x1 := le_max_left _ _
      linarith
    have hh : min a.y2 b.y2 - max a.y1 b.y1 ≤ a.y2 - a.y1 := by
      have h1 : min a.y2 b.y2 ≤ a.y2 := min_le_left _ _
      have h2 : a.y1 ≤ max a.y1 b.y1 := le_max_left _ _
      linarith
    exact mul_le_mul hw hh h.2 (by linarith [ha.1])

lemma intersectionArea_le_right (a b : Box) (hb : Nondegenerate b) :
    intersectionArea a b ≤ boxArea b := by
  rw [intersectionArea_comm]
  exact intersectionArea_le_left b a hb

lemma boxArea_pos (a : Box) (ha : Nondegenerate a) : 0 < boxArea a := by
  unfold boxArea
  have hx : 0 < a.x2 - a.x1 := by linarith [ha.1]
  have hy : 0 < a.y2 - a.y1 := by linarith [ha.2]
  positivity

/-- **C5.** For every pair of boxes where either box is degenerate
(`x_min ≥ x_max` or `y_min ≥ y_max` on either side), `iou` returns exactly
`0.0` (and, being a total function, raises no exception), regardless of the
other argument. -/
theorem iou_degenerate_eq_zero (a b : Box)
    (h : a.x1 ≥ a.x2 ∨ a.y1 ≥ a.y2 ∨ b.x1 ≥ b.x2 ∨ b.y1 ≥ b.y2) :
    iou a b = 0 := by
  unfold iou
  simp [h]

/-- Witness for C5 at a concrete degenerate input. -/
theorem iou_degenerate_eq_zero_witness :
    ((⟨5, 0, 5, 10⟩ : Box).x1 ≥ (⟨5, 0, 5, 10⟩ : Box).x2 ∨
      (⟨5, 0, 5, 10⟩ : Box).y1 ≥ (⟨5, 0, 5, 10⟩ : Box).y2 ∨
      (⟨0, 0, 4, 4⟩ : Box).x1 ≥ (⟨0, 0, 4, 4⟩ : Box).x2 ∨
      (⟨0, 0, 4, 4⟩ : Box).y1 ≥ (⟨0, 0, 4, 4⟩ : Box).y2) ∧
    iou ⟨5, 0, 5, 10⟩ ⟨0, 0, 4, 4⟩ = 0 :=
  ⟨by decide, iou_degenerate_eq_zero ⟨5, 0, 5, 10⟩ ⟨0, 0, 4, 4⟩ (by decide)⟩

/-- **C6.** For all non-degenerate boxes `a` and `b`, `iou a b = iou b a`,
and the returned value lies in the closed interval `[0, 1]`. -/
theorem iou_symm_and_range (a b : Box) (ha : Nondegenerate a) (hb : Nondegenerate b) :
    iou a b = iou b a ∧ 0 ≤ iou a b ∧ iou a b ≤ 1 := by
  obtain ⟨ha1, ha2⟩ := ha
  obtain ⟨hb1, hb2⟩ := hb
  have hdeg : ¬(a.x1 ≥ a.x2 ∨ a.y1 ≥ a.y2 ∨ b.x1 ≥ b.x2 ∨ b.y1 ≥ b.y2) := by
    push_neg; exact ⟨ha1, ha2, hb1, hb2⟩
  have hdeg' : ¬(b.x1 ≥ b.x2 ∨ b.y1 ≥ b.y2 ∨ a.x1 ≥ a.x2 ∨ a.y1 ≥ a.y2) := by
    push_neg; exact ⟨hb1, hb2, ha1, ha2⟩
  have hIle : intersectionArea a b ≤ boxArea a :=
    intersectionArea_le_left a b ⟨ha1, ha2⟩
  have hIle' : intersectionArea a b ≤ boxArea b :=
    intersectionArea_le_right a b ⟨hb1, hb2⟩
  have hI0 : 0 ≤ intersectionArea a b := intersectionArea_nonneg a b
  have hAa : 0 < boxArea a := boxArea_pos a ⟨ha1, ha2⟩
  have hAb : 0 < boxArea b := boxArea_pos b ⟨hb1, hb2⟩
  have hU : unionArea a b (intersectionArea a b) =
      boxArea a + boxArea b - intersectionArea a b := rfl
  have hUpos : 0 < unionArea a b (intersectionArea a b) + 1 / 1000000 := by
    rw [hU]; linarith
  refine ⟨?_, ?_, ?_⟩
  · unfold iou
    rw [if_neg hdeg, if_neg hdeg']
    have hIc : intersectionArea a b = intersectionArea b a := intersectionArea_comm a b
    have hUc : unionArea a b (intersectionArea a b) =
        unionArea b a (intersectionArea b a) := by
      unfold unionArea; rw [hIc]; ring
    dsimp only
    rw [hUc, hIc]
  · unfold iou
    rw [if_neg hdeg]
    exact div_nonneg hI0 (le_of_lt hUpos)
  · unfold iou
    rw [if_neg hdeg]
    rw [div_le_one hUpos, hU]
    linarith

/-- Witness for C6 at concrete non-degenerate inputs. -/
theorem iou_symm_and_range_witness :
    Nondegenerate ⟨0, 0, 4, 4⟩ ∧ Nondegenerate ⟨2, 2, 6, 6⟩ ∧
    (iou ⟨0, 0, 4, 4⟩ ⟨2, 2, 6, 6⟩ = iou ⟨2, 2, 6, 6⟩ ⟨0, 0, 4, 4⟩ ∧
      0 ≤ iou ⟨0, 0, 4, 4⟩ ⟨2, 2, 6, 6⟩ ∧ iou ⟨0, 0, 4, 4⟩ ⟨2, 2, 6, 6⟩ ≤ 1) :=
  ⟨by decide, by decide,
    iou_symm_and_range ⟨0, 0, 4, 4⟩ ⟨2, 2, 6, 6⟩ (by decide) (by decide)⟩

/-- **C7.** For every non-degenerate box `a`, `iou a a` equals
`area/(area + 1e-6)`, so its deviation from `1.0` is exactly the epsilon
tolerance `1e-6/(area + 1e-6)` introduced by the additive denominator
guard (in particular `iou a a ≤ 1`). -/
theorem iou_self_within_epsilon (a : Box) (ha : Nondegenerate a) :
    iou a a = boxArea a / (boxArea a + 1 / 1000000) ∧
    1 - iou a a = (1 / 1000000) / (boxArea a + 1 / 1000000) ∧
    iou a a ≤ 1 := by
  obtain ⟨ha1, ha2⟩ := ha
  have hdeg : ¬(a.x1 ≥ a.x2 ∨ a.y1 ≥ a.y2 ∨ a.x1 ≥ a.x2 ∨ a.y1 ≥ a.y2) := by
    push_neg; exact ⟨ha1, ha2, ha1, ha2⟩
  have hI : intersectionArea a a = boxArea a := by
    unfold intersectionArea boxArea
    simp only [max_self, min_self]
    rw [if_neg]
    push_neg
    constructor <;> linarith
  have hU : unionArea a a (boxArea a) = boxArea a := by
    unfold unionArea boxArea; ring
  have hA : 0 < boxArea a := boxArea_pos a ⟨ha1, ha2⟩
  have hden : (0:ℚ) < boxArea a + 1 / 1000000 := by linarith
  have heq : iou a a = boxArea a / (boxArea a + 1 / 1000000) := by
    unfold iou
    rw [if_neg hdeg, hI]
    dsimp only
    rw [hU]
  refine ⟨heq, ?_, ?_⟩
  · rw [heq]
    field_simp
  · rw [heq, div_le_one hden]
    linarith

/-- Witness for C7 at a concrete non-degenerate input. -/
theorem iou_self_within_epsilon_witness :
    Nondegenerate ⟨0, 0, 10, 10⟩ ∧
    (iou ⟨0, 0, 10, 10⟩ ⟨0, 0, 10, 10⟩ =
        boxArea ⟨0, 0, 10, 10⟩ / (boxArea ⟨0, 0, 10, 10⟩ + 1 / 1000000) ∧
      1 - iou ⟨0, 0, 10, 10⟩ ⟨0, 0, 10, 10⟩ =
        (1 / 1000000) / (boxArea ⟨0, 0, 10, 10⟩ + 1 / 1000000) ∧
      iou ⟨0, 0, 10, 10⟩ ⟨0, 0, 10, 10⟩ ≤ 1) :=
  ⟨by decide, iou_self_within_epsilon ⟨0, 0, 10, 10⟩ (by decide)⟩

/-- The tentative per-anchor classification enum `Object`
(`labeling.py` lines 26-30). -/
inductive Object where
  | POS
  | NONE
  | NEG
deriving DecidableEq

/-- A regression target `(tx, ty, tw, th)` as computed at
`labeling.py` lines 281-284. -/
structure RegTarget where
  tx : ℚ
  ty : ℚ
  tw : ℚ
  th : ℚ
deriving DecidableEq

/-- The configuration object `Settings` from `config.py`.  `config.py` is
not under `src/`; this records exactly the fields `get_image_rpns` reads
(`C._img_size`, `C._anchor_box_scales`, `C._anchor_box_ratios`,
`C._rpn_stride`, `C._iou_upper`, `C._iou_lower`), with the meanings the
spec gives them. -/
structure Settings where
  resized_img_width : ℚ
  resized_img_height : ℚ
  anchor_box_scales : List ℚ
  anchor_box_ratios : List (ℚ × ℚ)
  rpn_stride : ℚ
  iou_upper : ℚ
  iou_lower : ℚ

/-- One row of `image_info` as `get_image_rpns` receives it: after the
column swap in `DataProvider.__init__` (`labeling.py` line 124) a row is
`(label, x, y, h, w)`; the class label is never read by `get_image_rpns`
and is omitted.  `x`, `y` are the top-left corner and `w`, `h` the width
and height, in original-image pixels. -/
structure RawBox where
  x : ℚ
  y : ℚ
  h : ℚ
  w : ℚ
deriving DecidableEq

/-- One row of `gt_box_coordinates` (`labeling.py` lines 219-225).  Note
the storage order of the source: index 2 holds the maximal y coordinate
and index 3 the maximal x coordinate (the `iou` call at lines 260-261
reads them back as `[c0, c1, c3, c2]`). -/
structure GtCoords where
  c0 : ℚ
  c1 : ℚ
  c2 : ℚ
  c3 : ℚ
deriving DecidableEq

/-- `labeling.py` lines 221-225: scale one ground-truth box into
resized-image pixel coordinates (`x`/`w` by `resized_width/orig_width`,
`y`/`h` by `resized_height/orig_height`), converting width/height to max
coordinates by addition. -/
def normalizeGt (C : Settings) (orig_width orig_height : ℚ) (b : RawBox) : GtCoords :=
  { c0 := b.x * C.resized_img_width / orig_width
    c1 := b.y * C.resized_img_height / orig_height
    c2 := b.h * C.resized_img_height / orig_height + b.y * C.resized_img_height / orig_height
    c3 := b.w * C.resized_img_width / orig_width + b.x * C.resized_img_width / orig_width }

/-- The mutable state of one `get_image_rpns` invocation: the three output
tensors (`labeling.py` lines 210-216), the per-ground-truth-box best-match
bookkeeping (lines 228-232), and the function-scoped `best_reg_target`
variable (line 305; modelled with initial value `(0,0,0,0)` — under a
non-negative upper threshold it is always written before it is read). -/
structure RpnState where
  y_is_valid : ℕ → ℕ → ℕ → ℕ
  y_is_obj : ℕ → ℕ → ℕ → ℕ
  y_rpn_reg : ℕ → ℕ → ℕ → ℚ
  best_anchor_for_bbox : ℕ → ℤ × ℤ × ℤ × ℤ
  best_iou_for_bbox : ℕ → ℚ
  best_targets_for_bbox : ℕ → RegTarget
  n_anchors_per_bbox : ℕ → ℕ
  best_reg_target : RegTarget

/-- Pointwise update of a rank-3 tensor at one index triple. -/
def upd3 {α : Type} (f : ℕ → ℕ → ℕ → α) (j i k : ℕ) (v : α) : ℕ → ℕ → ℕ → α :=
  fun j' i' k' => if j' = j ∧ i' = i ∧ k' = k then v else f j' i' k'

/-- Pointwise update of a rank-1 array at one index. -/
def upd1 {α : Type} (f : ℕ → α) (b : ℕ) (v : α) : ℕ → α :=
  fun b' => if b' = b then v else f b'

/-- Write a 4-component regression target into the slice
`[start, start+4)` of the last axis (`y_rpn_reg[jy, ix, start:start+4]`). -/
def writeReg (f : ℕ → ℕ → ℕ → ℚ) (j i start : ℕ) (t : RegTarget) : ℕ → ℕ → ℕ → ℚ :=
  upd3 (upd3 (upd3 (upd3 f j i start t.tx) j i (start + 1) t.ty)
    j i (start + 2) t.tw) j i (start + 3) t.th

/-- All-zero tensors and bookkeeping; `best_anchor_for_bbox` rows start as
`-1 * np.ones(...)` (`labeling.py` line 228). -/
def initState : RpnState :=
  { y_is_valid := fun _ _ _ => 0
    y_is_obj := fun _ _ _ => 0
    y_rpn_reg := fun _ _ _ => 0
    best_anchor_for_bbox := fun _ => (-1, -1, -1, -1)
    best_iou_for_bbox := fun _ => 0
    best_targets_for_bbox := fun _ => ⟨0, 0, 0, 0⟩
    n_anchors_per_bbox := fun _ => 0
    best_reg_target := ⟨0, 0, 0, 0⟩ }

/-- `labeling.py` lines 276-284: the regression target of a ground-truth
box against the anchor box.  Line 282 writes `=` where `-` is intended
(`gt_box_y_center - anchor_y_center`); the subtraction is embedded.
`np.log` is abstracted by the `qlog` parameter. -/
def regTargetOf (qlog : ℚ → ℚ) (g : GtCoords) (x_min x_max y_min y_max : ℚ) : RegTarget :=
  let gt_box_x_center := (g.c3 + g.c0) / 2
  let gt_box_y_center := (g.c1 + g.c2) / 2
  let anchor_x_center := (x_max + x_min) / 2
  let anchor_y_center := (y_max + y_min) / 2
  { tx := (gt_box_x_center - anchor_x_center) / (x_max - x_min)
    ty := (gt_box_y_center - anchor_y_center) / (y_max - y_min)
    tw := qlog ((g.c3 - g.c0) / (x_max - x_min))
    th := qlog ((g.c2 - g.c1) / (y_max - y_min)) }

/-- Anchor x-min at feature-map column `ix` (`labeling.py` line 244):
`stride * (ix + 0.5) - anchor_width / 2`. -/
def anchorXmin (C : Settings) (ix : ℕ) (anchor_width : ℚ) : ℚ :=
  C.rpn_stride * ((ix : ℚ) + 1 / 2) - anchor_width / 2

/-- Anchor x-max at feature-map column `ix` (`labeling.py` line 245). -/
def anchorXmax (C : Settings) (ix : ℕ) (anchor_width : ℚ) : ℚ :=
  C.rpn_stride * ((ix : ℚ) + 1 / 2) + anchor_width / 2

/-- Anchor y-min at feature-map row `jy` (`labeling.py` line 251). -/
def anchorYmin (C : Settings) (jy : ℕ) (anchor_height : ℚ) : ℚ :=
  C.rpn_stride * ((jy : ℚ) + 1 / 2) - anchor_height / 2

/-- Anchor y-max at feature-map row `jy` (`labeling.py` line 252). -/
def anchorYmax (C : Settings) (jy : ℕ) (anchor_height : ℚ) : ℚ :=
  C.rpn_stride * ((jy : ℚ) + 1 / 2) + anchor_height / 2

/-- The comparison part of the innermost loop body (`labeling.py` lines
260-309), run for one ground-truth box index `b` with scaled coordinates
`g`.  The accumulator carries the state together with the loop-local
`bbox_type` and `best_iou_for_loc` variables (lines 256-257). -/
def bboxCompare (C : Settings) (qlog : ℚ → ℚ) (aIdx rIdx jy ix : ℕ)
    (x_min x_max y_min y_max : ℚ)
    (acc : RpnState × Object × ℚ) (bg : ℕ × GtCoords) : RpnState × Object × ℚ :=
  let s := acc.1
  let bbox_type := acc.2.1
  let best_iou_for_loc := acc.2.2
  let b := bg.1
  let g := bg.2
  let curr_iou := iou ⟨g.c0, g.c1, g.c3, g.c2⟩ ⟨x_min, y_min, x_max, y_max⟩
  if curr_iou > C.iou_upper ∨ curr_iou > s.best_iou_for_bbox b then
    let t := regTargetOf qlog g x_min x_max y_min y_max
    let s1 :=
      if curr_iou > s.best_iou_for_bbox b then
        { s with
          best_anchor_for_bbox :=
            upd1 s.best_anchor_for_bbox b ((jy : ℤ), (ix : ℤ), (aIdx : ℤ), (rIdx : ℤ))
          best_iou_for_bbox := upd1 s.best_iou_for_bbox b curr_iou
          best_targets_for_bbox := upd1 s.best_targets_for_bbox b t }
      else s
    let step2 :=
      if curr_iou > C.iou_upper then
        let s2 := { s1 with
          n_anchors_per_bbox :=
            upd1 s1.n_anchors_per_bbox b (s1.n_anchors_per_bbox b + 1) }
        if curr_iou > best_iou_for_loc then
          ({ s2 with best_reg_target := t }, Object.POS, curr_iou)
        else (s2, Object.POS, best_iou_for_loc)
      else (s1, bbox_type, best_iou_for_loc)
    let ty2 :=
      if C.iou_lower < curr_iou ∧ curr_iou < C.iou_upper then
        if step2.2.1 ≠ Object.POS then Object.NONE else step2.2.1
      else step2.2.1
    (step2.1, ty2, step2.2.2)
  else (s, bbox_type, best_iou_for_loc)

/-- The tensor-update block of the innermost loop body (`labeling.py`
lines 311-325), writing the current `bbox_type` into the three output
tensors at `(jy, ix, composite_anchor_index)`. -/
def writeCell (C : Settings) (aIdx rIdx jy ix : ℕ)
    (acc : RpnState × Object × ℚ) : RpnState × Object × ℚ :=
  let s3 := acc.1
  let ty3 := acc.2.1
  let composite_anchor_index := rIdx + aIdx * C.anchor_box_ratios.length
  let s4 :=
    match ty3 with
    | Object.POS =>
        { s3 with
          y_is_valid := upd3 s3.y_is_valid jy ix composite_anchor_index 1
          y_is_obj := upd3 s3.y_is_obj jy ix composite_anchor_index 1
          y_rpn_reg :=
            writeReg s3.y_rpn_reg jy ix (4 * composite_anchor_index) s3.best_reg_target }
    | Object.NEG =>
        { s3 with
          y_is_valid := upd3 s3.y_is_valid jy ix composite_anchor_index 1
          y_is_obj := upd3 s3.y_is_obj jy ix composite_anchor_index 0 }
    | Object.NONE =>
        { s3 with
          y_is_valid := upd3 s3.y_is_valid jy ix composite_anchor_index 0
          y_is_obj := upd3 s3.y_is_obj jy ix composite_anchor_index 0 }
  (s4, ty3, acc.2.2)

/-- The full innermost loop body (`labeling.py` lines 259-325): the
comparison block followed by the tensor-update block.  The tensor-update
block is indented inside the per-box loop in the source and therefore
executes at every iteration, as here. -/
def bboxStep (C : Settings) (qlog : ℚ → ℚ) (aIdx rIdx jy ix : ℕ)
    (x_min x_max y_min y_max : ℚ)
    (acc : RpnState × Object × ℚ) (bg : ℕ × GtCoords) : RpnState × Object × ℚ :=
  writeCell C aIdx rIdx jy ix
    (bboxCompare C qlog aIdx rIdx jy ix x_min x_max y_min y_max acc bg)

/-- The per-anchor ground-truth loop (`labeling.py` lines 256-325),
starting from `bbox_type = Object.NEG`, `best_iou_for_loc = 0.0`. -/
def anchorFoldResult (C : Settings) (qlog : ℚ → ℚ) (gts : List GtCoords)
    (aIdx rIdx jy ix : ℕ) (x_min x_max y_min y_max : ℚ)
    (s : RpnState) : RpnState × Object × ℚ :=
  gts.enum.foldl (bboxStep C qlog aIdx rIdx jy ix x_min x_max y_min y_max)
    (s, Object.NEG, 0)

/-- One feature-map cell with both bound checks (`labeling.py` lines
244-254): out-of-bounds anchors are skipped entirely (`continue`),
in-bounds anchors run the per-box loop. -/
def cellStep (C : Settings) (qlog : ℚ → ℚ) (gts : List GtCoords)
    (aIdx rIdx : ℕ) (anchor_width anchor_height : ℚ)
    (s : RpnState) (p : ℕ × ℕ) : RpnState :=
  let ix := p.1
  let jy := p.2
  if anchorXmin C ix anchor_width < 0 ∨ anchorXmax C ix anchor_width > C.resized_img_width
  then s
  else
    if anchorYmin C jy anchor_height < 0 ∨
        anchorYmax C jy anchor_height > C.resized_img_height
    then s
    else
      (anchorFoldResult C qlog gts aIdx rIdx jy ix
        (anchorXmin C ix anchor_width) (anchorXmax C ix anchor_width)
        (anchorYmin C jy anchor_height) (anchorYmax C jy anchor_height) s).1

/-- The nested feature-map loops for one anchor shape (`labeling.py`
lines 242-325): `ix` over the feature-map width in the outer loop (with
the x-bound check hoisted, line 248), `jy` over the height in the inner
loop. -/
def ratioLoop (C : Settings) (qlog : ℚ → ℚ) (gts : List GtCoords)
    (fW fH : ℕ) (aIdx rIdx : ℕ) (anchor_width anchor_height : ℚ)
    (s : RpnState) : RpnState :=
  (List.range fW).foldl
    (fun (s : RpnState) (ix : ℕ) =>
      if anchorXmin C ix anchor_width < 0 ∨
          anchorXmax C ix anchor_width > C.resized_img_width
      then s
      else
        (List.range fH).foldl
          (fun (s : RpnState) (jy : ℕ) =>
            if anchorYmin C jy anchor_height < 0 ∨
                anchorYmax C jy anchor_height > C.resized_img_height
            then s
            else
              (anchorFoldResult C qlog gts aIdx rIdx jy ix
                (anchorXmin C ix anchor_width) (anchorXmax C ix anchor_width)
                (anchorYmin C jy anchor_height) (anchorYmax C jy anchor_height) s).1)
          s)
    s

/-- The order in which the feature-map loops of `labeling.py` lines
242-254 visit `(ix, jy)` cells for one anchor shape: column `ix` in the
outer loop, row `jy` in the inner loop. -/
def anchorVisitOrder (fW fH : ℕ) : List (ℕ × ℕ) :=
  (List.range fW).flatMap (fun ix => (List.range fH).map (fun jy => (ix, jy)))

/-- Modelled from the spec: the visit order the spec's tie-break sentence
asserts — "shape outer loops in a fixed, deterministic order, then row,
then column", i.e. row `jy` in the outer loop and column `ix` in the inner
loop.  Written from the spec's words for comparison with
`anchorVisitOrder`. -/
def specScanOrder (fW fH : ℕ) : List (ℕ × ℕ) :=
  (List.range fH).flatMap (fun jy => (List.range fW).map (fun ix => (ix, jy)))

/-- One aspect-ratio iteration (`labeling.py` lines 236-239): anchor
width/height are `anchor_area * ratio_component`. -/
def ratioStep (C : Settings) (qlog : ℚ → ℚ) (gts : List GtCoords)
    (fW fH : ℕ) (aIdx : ℕ) (anchor_area : ℚ)
    (s : RpnState) (rp : ℕ × (ℚ × ℚ)) : RpnState :=
  ratioLoop C qlog gts fW fH aIdx rp.1 (anchor_area * rp.2.1) (anchor_area * rp.2.2) s

/-- One iteration of the repair loop (`labeling.py` lines 333-341): a
ground-truth box with a zero positive-anchor counter and a recorded best
match (first component of its `best_anchor_for_bbox` row differs from the
`-1` sentinel) gets that anchor force-assigned: `valid = 1`,
`objectness = 1` and its recorded regression target, overwriting the cell
unconditionally. -/
def repairStep (C : Settings) (s : RpnState) (b : ℕ) : RpnState :=
  if s.n_anchors_per_bbox b = 0 then
    if (s.best_anchor_for_bbox b).1 ≠ -1 then
      let ba := s.best_anchor_for_bbox b
      let composite_anchor_index :=
        ba.2.2.2.toNat + ba.2.2.1.toNat * C.anchor_box_ratios.length
      let y_loc := ba.1.toNat
      let x_loc := ba.2.1.toNat
      { s with
        y_is_valid := upd3 s.y_is_valid y_loc x_loc composite_anchor_index 1
        y_is_obj := upd3 s.y_is_obj y_loc x_loc composite_anchor_index 1
        y_rpn_reg := writeReg s.y_rpn_reg y_loc x_loc
          (4 * composite_anchor_index) (s.best_targets_for_bbox b) }
    else s
  else s

/-- The repair loop over all ground-truth box indices (`labeling.py`
lines 333-341). -/
def repairPass (C : Settings) (num_bboxes : ℕ) (s : RpnState) : RpnState :=
  (List.range num_bboxes).foldl (repairStep C) s

/-- One anchor-scale iteration (`labeling.py` lines 235-341): all aspect
ratios and feature-map cells for this scale, then — still inside the scale
loop in the source — the repair pass. -/
def scaleStep (C : Settings) (qlog : ℚ → ℚ) (gts : List GtCoords)
    (fW fH : ℕ) (s : RpnState) (ap : ℕ × ℚ) : RpnState :=
  repairPass C gts.length
    ((C.anchor_box_ratios.enum).foldl (ratioStep C qlog gts fW fH ap.1 ap.2) s)

/-- `get_image_rpns` (`labeling.py` lines 205-341): normalize every
ground-truth box once, then scan every anchor shape over the feature map.
The source's stray-name slips (`image_bbox_info` for the `image_info`
parameter, `width`/`height` for `orig_width`/`orig_height`,
`gt_box_coordiantes`, `astypte`, `best_target_for_bbox`,
`num_anchors_for_bbox`, `curr_iou` assignment via `=` on line 282) are
resolved to the intended local names.  The unread
`best_coordinates_for_bbox` array is omitted. -/
def get_image_rpns (C : Settings) (qlog : ℚ → ℚ)
    (orig_width orig_height : ℚ)
    (img_dimension_calc_fn : ℚ → ℚ → ℕ × ℕ)
    (image_info : List RawBox) : RpnState :=
  let dims := img_dimension_calc_fn C.resized_img_width C.resized_img_height
  let gts := image_info.map (normalizeGt C orig_width orig_height)
  (C.anchor_box_scales.enum).foldl (scaleStep C qlog gts dims.1 dims.2) initState

lemma object_neg_ne_pos : Object.NEG ≠ Object.POS := fun h => Object.noConfusion h

lemma object_none_ne_pos : Object.NONE ≠ Object.POS := fun h => Object.noConfusion h

/-- Fold a preserved invariant over a list. -/
lemma foldl_preserve {α β : Type} (P : α → Prop) (f : α → β → α) (l : List β) (s : α)
    (hstep : ∀ a b, b ∈ l → P a → P (f a b)) (hs : P s) : P (l.foldl f s) := by
  induction l generalizing s with
  | nil => exact hs
  | cons x t ih =>
      exact ih (f s x) (fun a b hb => hstep a b (List.mem_cons_of_mem x hb))
        (hstep s x (List.mem_cons_self x t) hs)

/-- A fold over a nonempty list ends with an application of the step
function to some intermediate accumulator and some list element. -/
lemma foldl_ne_nil_decomp {α β : Type} (f : α → β → α) :
    ∀ (l : List β) (i : α), l = [] ∨ ∃ a x, x ∈ l ∧ l.foldl f i = f a x := by
  intro l
  induction l with
  | nil => exact fun _ => Or.inl rfl
  | cons y t ih =>
      intro i
      refine Or.inr ?_
      rcases ih (f i y) with hnil | ⟨a, x, hx, he⟩
      · subst hnil
        exact ⟨i, y, List.mem_cons_self y [], rfl⟩
      · exact ⟨a, x, List.mem_cons_of_mem y hx, he⟩

/-- **C9.** Each ground-truth box given as `(class, x, y, width, height)`
in original-image pixels is normalized, exactly once and before the grid
scan, to resized-image coordinates with
`x_min = x * resized_width / orig_width`,
`y_min = y * resized_height / orig_height`,
`x_max = x_min + width * resized_width / orig_width`,
`y_max = y_min + height * resized_height / orig_height`:
`get_image_rpns` first maps `normalizeGt` over the box list and the grid
scan consumes only the resulting list. -/
theorem normalizeGt_runs_once_with_formulas (C : Settings) (qlog : ℚ → ℚ)
    (orig_width orig_height : ℚ) (dimfn : ℚ → ℚ → ℕ × ℕ)
    (image_info : List RawBox) :
    (∀ b : RawBox,
      (normalizeGt C orig_width orig_height b).c0 =
        b.x * C.resized_img_width / orig_width ∧
      (normalizeGt C orig_width orig_height b).c1 =
        b.y * C.resized_img_height / orig_height ∧
      (normalizeGt C orig_width orig_height b).c3 =
        (normalizeGt C orig_width orig_height b).c0 +
          b.w * C.resized_img_width / orig_width ∧
      (normalizeGt C orig_width orig_height b).c2 =
        (normalizeGt C orig_width orig_height b).c1 +
          b.h * C.resized_img_height / orig_height) ∧
    get_image_rpns C qlog orig_width orig_height dimfn image_info =
      (C.anchor_box_scales.enum).foldl
        (scaleStep C qlog (image_info.map (normalizeGt C orig_width orig_height))
          (dimfn C.resized_img_width C.resized_img_height).1
          (dimfn C.resized_img_width C.resized_img_height).2)
        initState := by
  refine ⟨fun b => ⟨rfl, rfl, ?_, ?_⟩, rfl⟩
  · unfold normalizeGt
    dsimp only
    ring
  · unfold normalizeGt
    dsimp only
    ring

lemma upd3_same {α : Type} (f : ℕ → ℕ → ℕ → α) (j i k : ℕ) (v : α) :
    upd3 f j i k v j i k = v := by simp [upd3]

lemma upd3_ne {α : Type} (f : ℕ → ℕ → ℕ → α) (j i k j' i' k' : ℕ) (v : α)
    (h : ¬(j' = j ∧ i' = i ∧ k' = k)) :
    upd3 f j i k v j' i' k' = f j' i' k' := by simp [upd3, h]

lemma upd1_same {α : Type} (f : ℕ → α) (b : ℕ) (v : α) : upd1 f b v b = v := by
  simp [upd1]

lemma writeReg_eval (f : ℕ → ℕ → ℕ → ℚ) (j i start : ℕ) (t : RegTarget) :
    writeReg f j i start t j i start = t.tx ∧
    writeReg f j i start t j i (start + 1) = t.ty ∧
    writeReg f j i start t j i (start + 2) = t.tw ∧
    writeReg f j i start t j i (start + 3) = t.th := by
  unfold writeReg
  refine ⟨?_, ?_, ?_, ?_⟩ <;> simp [upd3]

/-- The comparison block never touches the three output tensors. -/
lemma bboxCompare_tensors (C : Settings) (qlog : ℚ → ℚ) (aIdx rIdx jy ix : ℕ)
    (x_min x_max y_min y_max : ℚ) (acc : RpnState × Object × ℚ) (bg : ℕ × GtCoords) :
    (bboxCompare C qlog aIdx rIdx jy ix x_min x_max y_min y_max acc bg).1.y_is_valid =
      acc.1.y_is_valid ∧
    (bboxCompare C qlog aIdx rIdx jy ix x_min x_max y_min y_max acc bg).1.y_is_obj =
      acc.1.y_is_obj ∧
    (bboxCompare C qlog aIdx rIdx jy ix x_min x_max y_min y_max acc bg).1.y_rpn_reg =
      acc.1.y_rpn_reg := by
  unfold bboxCompare
  dsimp only
  split_ifs <;> simp

/-- The tensor-update block never touches the bookkeeping state nor the
loop-local variables. -/
lemma writeCell_bookkeeping (C : Settings) (aIdx rIdx jy ix : ℕ)
    (acc : RpnState × Object × ℚ) :
    (writeCell C aIdx rIdx jy ix acc).1.best_anchor_for_bbox =
      acc.1.best_anchor_for_bbox ∧
    (writeCell C aIdx rIdx jy ix acc).1.best_iou_for_bbox = acc.1.best_iou_for_bbox ∧
    (writeCell C aIdx rIdx jy ix acc).1.best_targets_for_bbox =
      acc.1.best_targets_for_bbox ∧
    (writeCell C aIdx rIdx jy ix acc).1.n_anchors_per_bbox = acc.1.n_anchors_per_bbox ∧
    (writeCell C aIdx rIdx jy ix acc).1.best_reg_target = acc.1.best_reg_target ∧
    (writeCell C aIdx rIdx jy ix acc).2 = acc.2 := by
  obtain ⟨s, ty, bl⟩ := acc
  cases ty <;> simp [writeCell]

/-- The validity tensor written by the tensor-update block. -/
lemma writeCell_valid (C : Settings) (aIdx rIdx jy ix : ℕ)
    (acc : RpnState × Object × ℚ) :
    (writeCell C aIdx rIdx jy ix acc).1.y_is_valid =
      upd3 acc.1.y_is_valid jy ix (rIdx + aIdx * C.anchor_box_ratios.length)
        (if acc.2.1 = Object.NONE then 0 else 1) := by
  obtain ⟨s, ty, bl⟩ := acc
  cases ty <;> simp [writeCell]

/-- The objectness tensor written by the tensor-update block. -/
lemma writeCell_obj (C : Settings) (aIdx rIdx jy ix : ℕ)
    (acc : RpnState × Object × ℚ) :
    (writeCell C aIdx rIdx jy ix acc).1.y_is_obj =
      upd3 acc.1.y_is_obj jy ix (rIdx + aIdx * C.anchor_box_ratios.length)
        (if acc.2.1 = Object.POS then 1 else 0) := by
  obtain ⟨s, ty, bl⟩ := acc
  cases ty <;> simp [writeCell]

/-- The regression tensor written by the tensor-update block. -/
lemma writeCell_reg (C : Settings) (aIdx rIdx jy ix : ℕ)
    (acc : RpnState × Object × ℚ) :
    (writeCell C aIdx rIdx jy ix acc).1.y_rpn_reg =
      if acc.2.1 = Object.POS then
        writeReg acc.1.y_rpn_reg jy ix
          (4 * (rIdx + aIdx * C.anchor_box_ratios.length)) acc.1.best_reg_target
      else acc.1.y_rpn_reg := by
  obtain ⟨s, ty, bl⟩ := acc
  cases ty <;> simp [writeCell]

/-- The repair step never touches the bookkeeping state. -/
lemma repairStep_bookkeeping (C : Settings) (s : RpnState) (b : ℕ) :
    (repairStep C s b).best_anchor_for_bbox = s.best_anchor_for_bbox ∧
    (repairStep C s b).best_iou_for_bbox = s.best_iou_for_bbox ∧
    (repairStep C s b).best_targets_for_bbox = s.best_targets_for_bbox ∧
    (repairStep C s b).n_anchors_per_bbox = s.n_anchors_per_bbox := by
  unfold repairStep
  split_ifs <;> simp

/-- The repair step writes only the value `1` into the validity tensor. -/
lemma repairStep_mono_valid (C : Settings) (s : RpnState) (b j i k : ℕ)
    (h : s.y_is_valid j i k = 1) : (repairStep C s b).y_is_valid j i k = 1 := by
  unfold repairStep
  split_ifs <;> simp [upd3, h]

/-- The repair step writes only the value `1` into the objectness tensor. -/
lemma repairStep_mono_obj (C : Settings) (s : RpnState) (b j i k : ℕ)
    (h : s.y_is_obj j i k = 1) : (repairStep C s b).y_is_obj j i k = 1 := by
  unfold repairStep
  split_ifs <;> simp [upd3, h]

/-- When its guards hold, the repair step performs exactly the three
forced writes at the recorded best-match anchor's cell. -/
lemma repairStep_fires (C : Settings) (s : RpnState) (b : ℕ)
    (hn : s.n_anchors_per_bbox b = 0) (hb : (s.best_anchor_for_bbox b).1 ≠ -1) :
    repairStep C s b =
      { s with
        y_is_valid := upd3 s.y_is_valid (s.best_anchor_for_bbox b).1.toNat
          (s.best_anchor_for_bbox b).2.1.toNat
          ((s.best_anchor_for_bbox b).2.2.2.toNat +
            (s.best_anchor_for_bbox b).2.2.1.toNat * C.anchor_box_ratios.length) 1
        y_is_obj := upd3 s.y_is_obj (s.best_anchor_for_bbox b).1.toNat
          (s.best_anchor_for_bbox b).2.1.toNat
          ((s.best_anchor_for_bbox b).2.2.2.toNat +
            (s.best_anchor_for_bbox b).2.2.1.toNat * C.anchor_box_ratios.length) 1
        y_rpn_reg := writeReg s.y_rpn_reg (s.best_anchor_for_bbox b).1.toNat
          (s.best_anchor_for_bbox b).2.1.toNat
          (4 * ((s.best_anchor_for_bbox b).2.2.2.toNat +
            (s.best_anchor_for_bbox b).2.2.1.toNat * C.anchor_box_ratios.length))
          (s.best_targets_for_bbox b) } := by
  unfold repairStep
  rw [if_pos hn, if_pos hb]

/-- After a nonempty per-anchor ground-truth loop, the three tensors at
`(jy, ix, composite_anchor_index)` hold exactly the values dictated by the
final classification and the final location-best regression target. -/
lemma anchorFold_final_write (C : Settings) (qlog : ℚ → ℚ) (aIdx rIdx jy ix : ℕ)
    (x_min x_max y_min y_max : ℚ) :
    ∀ (l : List (ℕ × GtCoords)) (acc : RpnState × Object × ℚ), l ≠ [] →
      (l.foldl (bboxStep C qlog aIdx rIdx jy ix x_min x_max y_min y_max) acc).1.y_is_valid
          jy ix (rIdx + aIdx * C.anchor_box_ratios.length) =
        (if (l.foldl (bboxStep C qlog aIdx rIdx jy ix x_min x_max y_min y_max) acc).2.1 =
            Object.NONE then 0 else 1) ∧
      (l.foldl (bboxStep C qlog aIdx rIdx jy ix x_min x_max y_min y_max) acc).1.y_is_obj
          jy ix (rIdx + aIdx * C.anchor_box_ratios.length) =
        (if (l.foldl (bboxStep C qlog aIdx rIdx jy ix x_min x_max y_min y_max) acc).2.1 =
            Object.POS then 1 else 0) ∧
      ((l.foldl (bboxStep C qlog aIdx rIdx jy ix x_min x_max y_min y_max) acc).2.1 =
          Object.POS →
        (l.foldl (bboxStep C qlog aIdx rIdx jy ix x_min x_max y_min y_max) acc).1.y_rpn_reg
            jy ix (4 * (rIdx + aIdx * C.anchor_box_ratios.length)) =
          (l.foldl (bboxStep C qlog aIdx rIdx jy ix x_min x_max y_min y_max)
            acc).1.best_reg_target.tx ∧
        (l.foldl (bboxStep C qlog aIdx rIdx jy ix x_min x_max y_min y_max) acc).1.y_rpn_reg
            jy ix (4 * (rIdx + aIdx * C.anchor_box_ratios.length) + 1) =
          (l.foldl (bboxStep C qlog aIdx rIdx jy ix x_min x_max y_min y_max)
            acc).1.best_reg_target.ty ∧
        (l.foldl (bboxStep C qlog aIdx rIdx jy ix x_min x_max y_min y_max) acc).1.y_rpn_reg
            jy ix (4 * (rIdx + aIdx * C.anchor_box_ratios.length) + 2) =
          (l.foldl (bboxStep C qlog aIdx rIdx jy ix x_min x_max y_min y_max)
            acc).1.best_reg_target.tw ∧
        (l.foldl (bboxStep C qlog aIdx rIdx jy ix x_min x_max y_min y_max) acc).1.y_rpn_reg
            jy ix (4 * (rIdx + aIdx * C.anchor_box_ratios.length) + 3) =
          (l.foldl (bboxStep C qlog aIdx rIdx jy ix x_min x_max y_min y_max)
            acc).1.best_reg_target.th) := by
  intro l
  induction l with
  | nil => exact fun _ h => absurd rfl h
  | cons x t ih =>
      intro acc _
      cases ht : t with
      | cons z u =>
          rw [List.foldl_cons]
          exact ht ▸ ih (bboxStep C qlog aIdx rIdx jy ix x_min x_max y_min y_max acc x)
            (by rw [ht]; exact List.cons_ne_nil z u)
      | nil =>
          rw [List.foldl_cons, List.foldl_nil]
          set c := bboxCompare C qlog aIdx rIdx jy ix x_min x_max y_min y_max acc x with hc
          have hty : (bboxStep C qlog aIdx rIdx jy ix x_min x_max y_min y_max acc x).2 =
              c.2 := (writeCell_bookkeeping C aIdx rIdx jy ix c).2.2.2.2.2
          have hbrt :
              (bboxStep C qlog aIdx rIdx jy ix x_min x_max y_min y_max
                acc x).1.best_reg_target = c.1.best_reg_target :=
            (writeCell_bookkeeping C aIdx rIdx jy ix c).2.2.2.2.1
          have hv := writeCell_valid C aIdx rIdx jy ix c
          have ho := writeCell_obj C aIdx rIdx jy ix c
          have hr := writeCell_reg C aIdx rIdx jy ix c
          have hty1 : (bboxStep C qlog aIdx rIdx jy ix x_min x_max y_min y_max
              acc x).2.1 = c.2.1 := by rw [hty]
          have hv' : (bboxStep C qlog aIdx rIdx jy ix x_min x_max y_min y_max
              acc x).1.y_is_valid =
              upd3 c.1.y_is_valid jy ix (rIdx + aIdx * C.anchor_box_ratios.length)
                (if c.2.1 = Object.NONE then 0 else 1) := hv
          have ho' : (bboxStep C qlog aIdx rIdx jy ix x_min x_max y_min y_max
              acc x).1.y_is_obj =
              upd3 c.1.y_is_obj jy ix (rIdx + aIdx * C.anchor_box_ratios.length)
                (if c.2.1 = Object.POS then 1 else 0) := ho
          refine ⟨?_, ?_, ?_⟩
          · rw [hv', upd3_same, hty1]
          · rw [ho', upd3_same, hty1]
          · intro hpos
            have hpos' : c.2.1 = Object.POS := by rw [← hty1]; exact hpos
            have hr' : (bboxStep C qlog aIdx rIdx jy ix x_min x_max y_min y_max
                acc x).1.y_rpn_reg =
                writeReg c.1.y_rpn_reg jy ix
                  (4 * (rIdx + aIdx * C.anchor_box_ratios.length))
                  c.1.best_reg_target := by
              have h0 := writeCell_reg C aIdx rIdx jy ix c
              rw [if_pos hpos'] at h0
              exact h0
            rw [hr', hbrt]
            exact writeReg_eval c.1.y_rpn_reg jy ix
              (4 * (rIdx + aIdx * C.anchor_box_ratios.length)) c.1.best_reg_target

/-- The comparison block upgrades the tentative classification only when
the IoU strictly exceeds the upper threshold (to POSITIVE) or lies
strictly inside the open threshold band (to NEUTRAL); otherwise the
classification is passed through unchanged. -/
lemma bboxCompare_ty_fixed (C : Settings) (qlog : ℚ → ℚ) (aIdx rIdx jy ix : ℕ)
    (x_min x_max y_min y_max : ℚ) (acc : RpnState × Object × ℚ) (bg : ℕ × GtCoords)
    (h1 : ¬ iou ⟨bg.2.c0, bg.2.c1, bg.2.c3, bg.2.c2⟩ ⟨x_min, y_min, x_max, y_max⟩ >
      C.iou_upper)
    (h2 : ¬(C.iou_lower <
        iou ⟨bg.2.c0, bg.2.c1, bg.2.c3, bg.2.c2⟩ ⟨x_min, y_min, x_max, y_max⟩ ∧
      iou ⟨bg.2.c0, bg.2.c1, bg.2.c3, bg.2.c2⟩ ⟨x_min, y_min, x_max, y_max⟩ <
        C.iou_upper)) :
    (bboxCompare C qlog aIdx rIdx jy ix x_min x_max y_min y_max acc bg).2.1 = acc.2.1 := by
  unfold bboxCompare
  dsimp only
  split_ifs <;> simp_all

/-- A constant stand-in for `np.log` used in concrete runs (no claim
inspects the logarithmic components of a regression target). -/
def qlog0 : ℚ → ℚ := fun _ => 0

/-- Minimal concrete configuration: 16x16 resized image, stride 16, one
16x16 anchor shape, thresholds 0.3 and 0.7. -/
def cfgA : Settings :=
  { resized_img_width := 16, resized_img_height := 16
    anchor_box_scales := [16], anchor_box_ratios := [(1, 1)]
    rpn_stride := 16, iou_upper := 7 / 10, iou_lower := 3 / 10 }

/-- `cfgA` with the lower IoU threshold set exactly to the IoU that the
box `(0, 0, 16, 8)` attains against the anchor `(0, 0, 16, 16)`:
`128 / (256 + 1e-6)`. -/
def cfgThrLow : Settings :=
  { cfgA with iou_lower := 128000000 / 256000001 }

/-- `cfgA` with the upper IoU threshold set exactly to that same IoU and
a small lower threshold. -/
def cfgThrHigh : Settings :=
  { cfgA with iou_upper := 128000000 / 256000001, iou_lower := 1 / 10 }

/-- Refuting **C2** as stated: both threshold comparisons in the source
are strict (`curr_iou > C._iou_upper`, `C._iou_lower < curr_iou <
C._iou_upper`), so a pair whose IoU sits exactly on the lower threshold is
NEGATIVE (`valid = 1`, not the claimed NEUTRAL `valid = 0`), and a pair
exactly on the upper threshold is also NEGATIVE (`objectness = 0`, not
the claimed POSITIVE `objectness = 1`). -/
theorem threshold_iou_counterexample :
    (iou ⟨0, 0, 16, 8⟩ ⟨0, 0, 16, 16⟩ = cfgThrLow.iou_lower ∧
      (cellStep cfgThrLow qlog0 [⟨0, 0, 8, 16⟩] 0 0 16 16 initState (0, 0)).y_is_valid
        0 0 0 = 1) ∧
    (iou ⟨0, 0, 16, 8⟩ ⟨0, 0, 16, 16⟩ = cfgThrHigh.iou_upper ∧
      (cellStep cfgThrHigh qlog0 [⟨0, 0, 8, 16⟩] 0 0 16 16 initState (0, 0)).y_is_valid
        0 0 0 = 1 ∧
      (cellStep cfgThrHigh qlog0 [⟨0, 0, 8, 16⟩] 0 0 16 16 initState (0, 0)).y_is_obj
        0 0 0 = 0) := by
  refine ⟨⟨?_, ?_⟩, ?_, ?_, ?_⟩ <;>
    norm_num [cfgThrLow, cfgThrHigh, cfgA, cellStep, anchorFoldResult, bboxStep,
      bboxCompare, writeCell, anchorXmin, anchorXmax, anchorYmin, anchorYmax,
      iou, intersectionArea, unionArea, upd3, upd1, writeReg, initState, regTargetOf,
      qlog0, List.enum, List.enumFrom, min_def, max_def, object_neg_ne_pos,
      object_none_ne_pos]

/-- **C2** (amended).  For an anchor fully inside the resized image bounds
compared against a single ground-truth box whose IoU equals the lower
threshold exactly, or the upper threshold exactly, the grid scan
classifies the anchor NEGATIVE (`valid = 1`, `objectness = 0`) in both
cases: positivity requires IoU strictly above the upper threshold and the
neutral band is strictly open, so a threshold-exact IoU upgrades
nothing. -/
theorem threshold_iou_is_negative (C : Settings) (qlog : ℚ → ℚ) (g : GtCoords)
    (aIdx rIdx ix jy : ℕ) (anchor_width anchor_height : ℚ) (s : RpnState)
    (hlu : C.iou_lower ≤ C.iou_upper)
    (hx : ¬(anchorXmin C ix anchor_width < 0 ∨
        anchorXmax C ix anchor_width > C.resized_img_width))
    (hy : ¬(anchorYmin C jy anchor_height < 0 ∨
        anchorYmax C jy anchor_height > C.resized_img_height))
    (hiou : iou ⟨g.c0, g.c1, g.c3, g.c2⟩
        ⟨anchorXmin C ix anchor_width, anchorYmin C jy anchor_height,
          anchorXmax C ix anchor_width, anchorYmax C jy anchor_height⟩ = C.iou_lower ∨
      iou ⟨g.c0, g.c1, g.c3, g.c2⟩
        ⟨anchorXmin C ix anchor_width, anchorYmin C jy anchor_height,
          anchorXmax C ix anchor_width, anchorYmax C jy anchor_height⟩ = C.iou_upper) :
    (cellStep C qlog [g] aIdx rIdx anchor_width anchor_height s (ix, jy)).y_is_valid
        jy ix (rIdx + aIdx * C.anchor_box_ratios.length) = 1 ∧
    (cellStep C qlog [g] aIdx rIdx anchor_width anchor_height s (ix, jy)).y_is_obj
        jy ix (rIdx + aIdx * C.anchor_box_ratios.length) = 0 := by
  have hcell : cellStep C qlog [g] aIdx rIdx anchor_width anchor_height s (ix, jy) =
      (bboxStep C qlog aIdx rIdx jy ix
        (anchorXmin C ix anchor_width) (anchorXmax C ix anchor_width)
        (anchorYmin C jy anchor_height) (anchorYmax C jy anchor_height)
        (s, Object.NEG, 0) (0, g)).1 := by
    unfold cellStep
    dsimp only
    rw [if_neg hx, if_neg hy]
    rfl
  set x_min := anchorXmin C ix anchor_width
  set x_max := anchorXmax C ix anchor_width
  set y_min := anchorYmin C jy anchor_height
  set y_max := anchorYmax C jy anchor_height
  have h1 : ¬ iou ⟨g.c0, g.c1, g.c3, g.c2⟩ ⟨x_min, y_min, x_max, y_max⟩ >
      C.iou_upper := by
    rcases hiou with he | he <;> rw [he]
    · exact not_lt_of_le hlu
    · exact lt_irrefl _
  have h2 : ¬(C.iou_lower < iou ⟨g.c0, g.c1, g.c3, g.c2⟩ ⟨x_min, y_min, x_max, y_max⟩ ∧
      iou ⟨g.c0, g.c1, g.c3, g.c2⟩ ⟨x_min, y_min, x_max, y_max⟩ < C.iou_upper) := by
    rcases hiou with he | he <;> rw [he]
    · exact fun hcon => lt_irrefl _ hcon.1
    · exact fun hcon => lt_irrefl _ hcon.2
  set c := bboxCompare C qlog aIdx rIdx jy ix x_min x_max y_min y_max
    (s, Object.NEG, 0) (0, g) with hcdef
  have hty : c.2.1 = Object.NEG :=
    bboxCompare_ty_fixed C qlog aIdx rIdx jy ix x_min x_max y_min y_max
      (s, Object.NEG, 0) (0, g) h1 h2
  have hv := writeCell_valid C aIdx rIdx jy ix c
  have ho := writeCell_obj C aIdx rIdx jy ix c
  rw [hcell]
  constructor
  · show (writeCell C aIdx rIdx jy ix c).1.y_is_valid jy ix _ = 1
    rw [hv, upd3_same, hty]
    rfl
  · show (writeCell C aIdx rIdx jy ix c).1.y_is_obj jy ix _ = 0
    rw [ho, upd3_same, hty]
    rfl

/-- Witness for the amended C2 at a concrete threshold-exact input. -/
theorem threshold_iou_is_negative_witness :
    (cellStep cfgThrLow qlog0 [⟨0, 0, 8, 16⟩] 0 0 16 16 initState (0, 0)).y_is_valid
        0 0 (0 + 0 * cfgThrLow.anchor_box_ratios.length) = 1 ∧
    (cellStep cfgThrLow qlog0 [⟨0, 0, 8, 16⟩] 0 0 16 16 initState (0, 0)).y_is_obj
        0 0 (0 + 0 * cfgThrLow.anchor_box_ratios.length) = 0 :=
  threshold_iou_is_negative cfgThrLow qlog0 ⟨0, 0, 8, 16⟩ 0 0 0 0 16 16 initState
    (by norm_num [cfgThrLow, cfgA])
    (by norm_num [cfgThrLow, cfgA, anchorXmin, anchorXmax])
    (by norm_num [cfgThrLow, cfgA, anchorYmin, anchorYmax])
    (Or.inl (by norm_num [cfgThrLow, cfgA, anchorXmin, anchorXmax, anchorYmin,
      anchorYmax, iou, intersectionArea, unionArea, min_def, max_def]))

/-- Refuting **C4** as stated: the tensor-update block sits inside the
per-ground-truth-box loop, so with an empty ground-truth list the body
never runs and no write happens at all.  The in-bounds anchor below ends
the scan with final classification NEGATIVE, for which the claim requires
`valid = 1`; the output keeps the default `valid = 0`. -/
theorem cell_write_counterexample_empty :
    ¬(anchorXmin cfgA 0 16 < 0 ∨ anchorXmax cfgA 0 16 > cfgA.resized_img_width) ∧
    ¬(anchorYmin cfgA 0 16 < 0 ∨ anchorYmax cfgA 0 16 > cfgA.resized_img_height) ∧
    (anchorFoldResult cfgA qlog0 [] 0 0 0 0 (anchorXmin cfgA 0 16)
      (anchorXmax cfgA 0 16) (anchorYmin cfgA 0 16) (anchorYmax cfgA 0 16)
      initState).2.1 = Object.NEG ∧
    (get_image_rpns cfgA qlog0 16 16 (fun _ _ => (1, 1)) []).y_is_valid 0 0 0 = 0 ∧
    (get_image_rpns cfgA qlog0 16 16 (fun _ _ => (1, 1)) []).y_is_obj 0 0 0 = 0 := by
  refine ⟨?_, ?_, rfl, ?_, ?_⟩ <;>
    norm_num [cfgA, get_image_rpns, scaleStep, ratioStep, ratioLoop, repairPass,
      repairStep, anchorFoldResult, anchorXmin, anchorXmax, anchorYmin, anchorYmax,
      initState, qlog0, List.enum, List.enumFrom, List.range_succ]

/-- **C4** (amended).  For every in-bounds anchor scanned against a
nonempty ground-truth list, the grid scan leaves the three output tensors
at `(jy, ix, composite_anchor_index)`, with
`composite_anchor_index = ratio_index + scale_index * ratio_count`,
holding exactly the values dictated by the final classification of the
per-box loop: POSITIVE gives `valid = 1`, `objectness = 1` and the
location-best regression target; NEGATIVE gives `valid = 1`,
`objectness = 0`; NEUTRAL gives `valid = 0`, `objectness = 0`.  (The
physical writes happen once per ground-truth box rather than once after
the loop, so the last iteration's write — determined by the final
classification — is what remains; with an empty box list nothing is
written at all.) -/
theorem cell_write_follows_final_classification (C : Settings) (qlog : ℚ → ℚ)
    (gts : List GtCoords) (aIdx rIdx ix jy : ℕ) (anchor_width anchor_height : ℚ)
    (s : RpnState) (hne : gts ≠ [])
    (hx : ¬(anchorXmin C ix anchor_width < 0 ∨
        anchorXmax C ix anchor_width > C.resized_img_width))
    (hy : ¬(anchorYmin C jy anchor_height < 0 ∨
        anchorYmax C jy anchor_height > C.resized_img_height)) :
    (cellStep C qlog gts aIdx rIdx anchor_width anchor_height s (ix, jy)).y_is_valid
        jy ix (rIdx + aIdx * C.anchor_box_ratios.length) =
      (if (anchorFoldResult C qlog gts aIdx rIdx jy ix
          (anchorXmin C ix anchor_width) (anchorXmax C ix anchor_width)
          (anchorYmin C jy anchor_height) (anchorYmax C jy anchor_height) s).2.1 =
          Object.NONE then 0 else 1) ∧
    (cellStep C qlog gts aIdx rIdx anchor_width anchor_height s (ix, jy)).y_is_obj
        jy ix (rIdx + aIdx * C.anchor_box_ratios.length) =
      (if (anchorFoldResult C qlog gts aIdx rIdx jy ix
          (anchorXmin C ix anchor_width) (anchorXmax C ix anchor_width)
          (anchorYmin C jy anchor_height) (anchorYmax C jy anchor_height) s).2.1 =
          Object.POS then 1 else 0) ∧
    ((anchorFoldResult C qlog gts aIdx rIdx jy ix
        (anchorXmin C ix anchor_width) (anchorXmax C ix anchor_width)
        (anchorYmin C jy anchor_height) (anchorYmax C jy anchor_height) s).2.1 =
        Object.POS →
      (cellStep C qlog gts aIdx rIdx anchor_width anchor_height s (ix, jy)).y_rpn_reg
          jy ix (4 * (rIdx + aIdx * C.anchor_box_ratios.length)) =
        (anchorFoldResult C qlog gts aIdx rIdx jy ix
          (anchorXmin C ix anchor_width) (anchorXmax C ix anchor_width)
          (anchorYmin C jy anchor_height) (anchorYmax C jy anchor_height)
          s).1.best_reg_target.tx ∧
      (cellStep C qlog gts aIdx rIdx anchor_width anchor_height s (ix, jy)).y_rpn_reg
          jy ix (4 * (rIdx + aIdx * C.anchor_box_ratios.length) + 1) =
        (anchorFoldResult C qlog gts aIdx rIdx jy ix
          (anchorXmin C ix anchor_width) (anchorXmax C ix anchor_width)
          (anchorYmin C jy anchor_height) (anchorYmax C jy anchor_height)
          s).1.best_reg_target.ty ∧
      (cellStep C qlog gts aIdx rIdx anchor_width anchor_height s (ix, jy)).y_rpn_reg
          jy ix (4 * (rIdx + aIdx * C.anchor_box_ratios.length) + 2) =
        (anchorFoldResult C qlog gts aIdx rIdx jy ix
          (anchorXmin C ix anchor_width) (anchorXmax C ix anchor_width)
          (anchorYmin C jy anchor_height) (anchorYmax C jy anchor_height)
          s).1.best_reg_target.tw ∧
      (cellStep C qlog gts aIdx rIdx anchor_width anchor_height s (ix, jy)).y_rpn_reg
          jy ix (4 * (rIdx + aIdx * C.anchor_box_ratios.length) + 3) =
        (anchorFoldResult C qlog gts aIdx rIdx jy ix
          (anchorXmin C ix anchor_width) (anchorXmax C ix anchor_width)
          (anchorYmin C jy anchor_height) (anchorYmax C jy anchor_height)
          s).1.best_reg_target.th) := by
  have hcell : cellStep C qlog gts aIdx rIdx anchor_width anchor_height s (ix, jy) =
      (anchorFoldResult C qlog gts aIdx rIdx jy ix
        (anchorXmin C ix anchor_width) (anchorXmax C ix anchor_width)
        (anchorYmin C jy anchor_height) (anchorYmax C jy anchor_height) s).1 := by
    unfold cellStep
    dsimp only
    rw [if_neg hx, if_neg hy]
  rw [hcell]
  have henum : gts.enum ≠ [] := by
    simp only [ne_eq, List.enum_eq_nil]
    exact hne
  exact anchorFold_final_write C qlog aIdx rIdx jy ix
    (anchorXmin C ix anchor_width) (anchorXmax C ix anchor_width)
    (anchorYmin C jy anchor_height) (anchorYmax C jy anchor_height)
    gts.enum (s, Object.NEG, 0) henum

/-- Witness for the amended C4 at a concrete input. -/
theorem cell_write_follows_final_classification_witness :
    (cellStep cfgA qlog0 [⟨0, 0, 8, 16⟩] 0 0 16 16 initState (0, 0)).y_is_valid
        0 0 (0 + 0 * cfgA.anchor_box_ratios.length) =
      (if (anchorFoldResult cfgA qlog0 [⟨0, 0, 8, 16⟩] 0 0 0 0
          (anchorXmin cfgA 0 16) (anchorXmax cfgA 0 16) (anchorYmin cfgA 0 16)
          (anchorYmax cfgA 0 16) initState).2.1 = Object.NONE then 0 else 1) ∧
    (cellStep cfgA qlog0 [⟨0, 0, 8, 16⟩] 0 0 16 16 initState (0, 0)).y_is_obj
        0 0 (0 + 0 * cfgA.anchor_box_ratios.length) =
      (if (anchorFoldResult cfgA qlog0 [⟨0, 0, 8, 16⟩] 0 0 0 0
          (anchorXmin cfgA 0 16) (anchorXmax cfgA 0 16) (anchorYmin cfgA 0 16)
          (anchorYmax cfgA 0 16) initState).2.1 = Object.POS then 1 else 0) :=
  ⟨(cell_write_follows_final_classification cfgA qlog0 [⟨0, 0, 8, 16⟩] 0 0 0 0 16 16
      initState (List.cons_ne_nil _ _)
      (by norm_num [cfgA, anchorXmin, anchorXmax])
      (by norm_num [cfgA, anchorYmin, anchorYmax])).1,
    (cell_write_follows_final_classification cfgA qlog0 [⟨0, 0, 8, 16⟩] 0 0 0 0 16 16
      initState (List.cons_ne_nil _ _)
      (by norm_num [cfgA, anchorXmin, anchorXmax])
      (by norm_num [cfgA, anchorYmin, anchorYmax])).2.1⟩

/-- The invariant of claim C10: every cell of the objectness tensor with
value 1 also has value 1 in the validity tensor at the same index. -/
def ObjImpliesValid (s : RpnState) : Prop :=
  ∀ j i k, s.y_is_obj j i k = 1 → s.y_is_valid j i k = 1

lemma writeCell_preserves_obj_valid (C : Settings) (aIdx rIdx jy ix : ℕ)
    (acc : RpnState × Object × ℚ) (h : ObjImpliesValid acc.1) :
    ObjImpliesValid (writeCell C aIdx rIdx jy ix acc).1 := by
  intro j i k hobj
  rw [writeCell_valid]
  rw [writeCell_obj] at hobj
  unfold upd3 at hobj ⊢
  by_cases he : j = jy ∧ i = ix ∧ k = rIdx + aIdx * C.anchor_box_ratios.length
  · rw [if_pos he] at hobj ⊢
    cases hacc : acc.2.1 <;> rw [hacc] at hobj <;> simp_all
  · rw [if_neg he] at hobj ⊢
    exact h j i k hobj

lemma bboxStep_preserves_obj_valid (C : Settings) (qlog : ℚ → ℚ)
    (aIdx rIdx jy ix : ℕ) (x_min x_max y_min y_max : ℚ)
    (acc : RpnState × Object × ℚ) (bg : ℕ × GtCoords) (h : ObjImpliesValid acc.1) :
    ObjImpliesValid (bboxStep C qlog aIdx rIdx jy ix x_min x_max y_min y_max acc bg).1 := by
  unfold bboxStep
  apply writeCell_preserves_obj_valid
  intro j i k hobj
  have ht := bboxCompare_tensors C qlog aIdx rIdx jy ix x_min x_max y_min y_max acc bg
  rw [ht.1]
  rw [ht.2.1] at hobj
  exact h j i k hobj

lemma repairStep_preserves_obj_valid (C : Settings) (s : RpnState) (b : ℕ)
    (h : ObjImpliesValid s) : ObjImpliesValid (repairStep C s b) := by
  unfold repairStep
  split_ifs with h1 h2
  · intro j i k hobj
    dsimp only at hobj ⊢
    unfold upd3 at hobj ⊢
    by_cases he : j = (s.best_anchor_for_bbox b).1.toNat ∧
        i = (s.best_anchor_for_bbox b).2.1.toNat ∧
        k = (s.best_anchor_for_bbox b).2.2.2.toNat +
          (s.best_anchor_for_bbox b).2.2.1.toNat * C.anchor_box_ratios.length
    · rw [if_pos he]
    · rw [if_neg he] at hobj ⊢
      exact h j i k hobj
  · exact h
  · exact h

lemma anchorFold_preserves_obj_valid (C : Settings) (qlog : ℚ → ℚ)
    (gts : List GtCoords) (aIdx rIdx jy ix : ℕ) (x_min x_max y_min y_max : ℚ)
    (s : RpnState) (h : ObjImpliesValid s) :
    ObjImpliesValid (anchorFoldResult C qlog gts aIdx rIdx jy ix
      x_min x_max y_min y_max s).1 := by
  unfold anchorFoldResult
  exact foldl_preserve (fun acc => ObjImpliesValid acc.1) _ gts.enum (s, Object.NEG, 0)
    (fun a bg _ ha =>
      bboxStep_preserves_obj_valid C qlog aIdx rIdx jy ix x_min x_max y_min y_max a bg ha)
    h

lemma ratioLoop_preserves_obj_valid (C : Settings) (qlog : ℚ → ℚ)
    (gts : List GtCoords) (fW fH aIdx rIdx : ℕ) (anchor_width anchor_height : ℚ)
    (s : RpnState) (h : ObjImpliesValid s) :
    ObjImpliesValid (ratioLoop C qlog gts fW fH aIdx rIdx
      anchor_width anchor_height s) := by
  unfold ratioLoop
  refine foldl_preserve ObjImpliesValid _ (List.range fW) s (fun a ix _ ha => ?_) h
  dsimp only
  split_ifs with hxx
  · exact ha
  · refine foldl_preserve ObjImpliesValid _ (List.range fH) a (fun a2 jy _ ha2 => ?_) ha
    dsimp only
    split_ifs with hyy
    · exact ha2
    · exact anchorFold_preserves_obj_valid C qlog gts aIdx rIdx jy ix _ _ _ _ a2 ha2

lemma repairPass_preserves_obj_valid (C : Settings) (num : ℕ) (s : RpnState)
    (h : ObjImpliesValid s) : ObjImpliesValid (repairPass C num s) := by
  unfold repairPass
  exact foldl_preserve ObjImpliesValid _ (List.range num) s
    (fun a b _ ha => repairStep_preserves_obj_valid C a b ha) h

/-- **C10.** Objectness 1 implies validity 1 at every index triple: no
write — neither the grid scan's tensor-update block nor the repair pass —
ever sets objectness without setting validity, and the final output of
`get_image_rpns` satisfies the implication at every cell. -/
theorem objectness_implies_validity (C : Settings) (qlog : ℚ → ℚ)
    (orig_width orig_height : ℚ) (dimfn : ℚ → ℚ → ℕ × ℕ) (image_info : List RawBox) :
    (∀ (acc : RpnState × Object × ℚ) (bg : ℕ × GtCoords) (aIdx rIdx jy ix : ℕ)
        (x_min x_max y_min y_max : ℚ), ObjImpliesValid acc.1 →
        ObjImpliesValid (bboxStep C qlog aIdx rIdx jy ix
          x_min x_max y_min y_max acc bg).1) ∧
    (∀ (s : RpnState) (b : ℕ), ObjImpliesValid s →
        ObjImpliesValid (repairStep C s b)) ∧
    ObjImpliesValid (get_image_rpns C qlog orig_width orig_height dimfn image_info) := by
  refine ⟨fun acc bg aIdx rIdx jy ix x_min x_max y_min y_max h =>
      bboxStep_preserves_obj_valid C qlog aIdx rIdx jy ix x_min x_max y_min y_max acc bg h,
    fun s b h => repairStep_preserves_obj_valid C s b h, ?_⟩
  unfold get_image_rpns
  refine foldl_preserve ObjImpliesValid _ C.anchor_box_scales.enum initState
    (fun a ap _ ha => ?_) ?_
  · unfold scaleStep
    refine repairPass_preserves_obj_valid C _ _ ?_
    refine foldl_preserve ObjImpliesValid _ C.anchor_box_ratios.enum a
      (fun a2 rp _ ha2 => ?_) ha
    unfold ratioStep
    exact ratioLoop_preserves_obj_valid C qlog _ _ _ _ _ _ _ a2 ha2
  · intro j i k hobj
    simp [initState] at hobj

/-- Witness for C10: a run with a genuinely positive anchor. -/
theorem objectness_implies_validity_witness :
    (get_image_rpns cfgA qlog0 16 16 (fun _ _ => (1, 1))
      [⟨0, 0, 16, 16⟩]).y_is_obj 0 0 0 = 1 ∧
    (get_image_rpns cfgA qlog0 16 16 (fun _ _ => (1, 1))
      [⟨0, 0, 16, 16⟩]).y_is_valid 0 0 0 = 1 := by
  have hobj : (get_image_rpns cfgA qlog0 16 16 (fun _ _ => (1, 1))
      [⟨0, 0, 16, 16⟩]).y_is_obj 0 0 0 = 1 := by
    norm_num [cfgA, get_image_rpns, scaleStep, ratioStep, ratioLoop, repairPass,
      repairStep, anchorFoldResult, bboxStep, bboxCompare, writeCell, anchorXmin,
      anchorXmax, anchorYmin, anchorYmax, iou, intersectionArea, unionArea, upd3,
      upd1, writeReg, initState, normalizeGt, regTargetOf, qlog0, List.enum,
      List.enumFrom, List.range_succ, min_def, max_def, object_neg_ne_pos,
      object_none_ne_pos]
  exact ⟨hobj, (objectness_implies_validity cfgA qlog0 16 16 (fun _ _ => (1, 1))
    [⟨0, 0, 16, 16⟩]).2.2 0 0 0 hobj⟩

lemma foldl_over_flatMap {α β γ : Type} (f : β → List γ) (g : α → γ → α) :
    ∀ (l : List β) (i : α),
      (l.flatMap f).foldl g i = l.foldl (fun a x => (f x).foldl g a) i := by
  intro l
  induction l with
  | nil => intro i; rfl
  | cons y t ih =>
      intro i
      rw [List.flatMap_cons, List.foldl_append, List.foldl_cons, ih]

lemma foldl_id {α β : Type} (f : α → β → α) (l : List β) (a : α)
    (h : ∀ x b, b ∈ l → f x b = x) : l.foldl f a = a := by
  induction l generalizing a with
  | nil => rfl
  | cons y t ih =>
      rw [List.foldl_cons, h a y (List.mem_cons_self y t)]
      exact ih a (fun x b hb => h x b (List.mem_cons_of_mem y hb))

lemma foldl_ext {α β : Type} (f g : α → β → α) (l : List β) (a : α)
    (h : ∀ x b, b ∈ l → f x b = g x b) : l.foldl f a = l.foldl g a := by
  induction l generalizing a with
  | nil => rfl
  | cons y t ih =>
      rw [List.foldl_cons, List.foldl_cons, h a y (List.mem_cons_self y t)]
      exact ih _ (fun x b hb => h x b (List.mem_cons_of_mem y hb))

/-- The nested `ix`/`jy` loops of one anchor shape visit exactly the cells
of `anchorVisitOrder fW fH`, in that order. -/
lemma ratioLoop_eq_visit_foldl (C : Settings) (qlog : ℚ → ℚ) (gts : List GtCoords)
    (fW fH aIdx rIdx : ℕ) (anchor_width anchor_height : ℚ) (s : RpnState) :
    ratioLoop C qlog gts fW fH aIdx rIdx anchor_width anchor_height s =
      (anchorVisitOrder fW fH).foldl
        (cellStep C qlog gts aIdx rIdx anchor_width anchor_height) s := by
  unfold ratioLoop anchorVisitOrder
  rw [foldl_over_flatMap]
  refine foldl_ext _ _ (List.range fW) s (fun x ix _ => ?_)
  rw [List.foldl_map]
  by_cases hxx : anchorXmin C ix anchor_width < 0 ∨
      anchorXmax C ix anchor_width > C.resized_img_width
  · rw [if_pos hxx]
    refine (foldl_id
      (fun a jy => cellStep C qlog gts aIdx rIdx anchor_width anchor_height a (ix, jy))
      (List.range fH) x (fun a jy _ => ?_)).symm
    unfold cellStep
    dsimp only
    rw [if_pos hxx]
  · rw [if_neg hxx]
    refine foldl_ext _ _ (List.range fH) x (fun a jy _ => ?_)
    unfold cellStep
    dsimp only
    rw [if_neg hxx]

lemma bboxCompare_best_iou (C : Settings) (qlog : ℚ → ℚ) (aIdx rIdx jy ix : ℕ)
    (x_min x_max y_min y_max : ℚ) (acc : RpnState × Object × ℚ) (bg : ℕ × GtCoords) :
    (bboxCompare C qlog aIdx rIdx jy ix x_min x_max y_min y_max
        acc bg).1.best_iou_for_bbox =
      if iou ⟨bg.2.c0, bg.2.c1, bg.2.c3, bg.2.c2⟩ ⟨x_min, y_min, x_max, y_max⟩ >
          acc.1.best_iou_for_bbox bg.1 then
        upd1 acc.1.best_iou_for_bbox bg.1
          (iou ⟨bg.2.c0, bg.2.c1, bg.2.c3, bg.2.c2⟩ ⟨x_min, y_min, x_max, y_max⟩)
      else acc.1.best_iou_for_bbox := by
  unfold bboxCompare
  dsimp only
  split_ifs <;> simp_all

lemma bboxCompare_best_anchor (C : Settings) (qlog : ℚ → ℚ) (aIdx rIdx jy ix : ℕ)
    (x_min x_max y_min y_max : ℚ) (acc : RpnState × Object × ℚ) (bg : ℕ × GtCoords) :
    (bboxCompare C qlog aIdx rIdx jy ix x_min x_max y_min y_max
        acc bg).1.best_anchor_for_bbox =
      if iou ⟨bg.2.c0, bg.2.c1, bg.2.c3, bg.2.c2⟩ ⟨x_min, y_min, x_max, y_max⟩ >
          acc.1.best_iou_for_bbox bg.1 then
        upd1 acc.1.best_anchor_for_bbox bg.1 ((jy : ℤ), (ix : ℤ), (aIdx : ℤ), (rIdx : ℤ))
      else acc.1.best_anchor_for_bbox := by
  unfold bboxCompare
  dsimp only
  split_ifs <;> simp_all

lemma bboxCompare_best_loc (C : Settings) (qlog : ℚ → ℚ) (aIdx rIdx jy ix : ℕ)
    (x_min x_max y_min y_max : ℚ) (acc : RpnState × Object × ℚ) (bg : ℕ × GtCoords) :
    (bboxCompare C qlog aIdx rIdx jy ix x_min x_max y_min y_max acc bg).2.2 =
      if iou ⟨bg.2.c0, bg.2.c1, bg.2.c3, bg.2.c2⟩ ⟨x_min, y_min, x_max, y_max⟩ >
            C.iou_upper ∧
          iou ⟨bg.2.c0, bg.2.c1, bg.2.c3, bg.2.c2⟩ ⟨x_min, y_min, x_max, y_max⟩ >
            acc.2.2 then
        iou ⟨bg.2.c0, bg.2.c1, bg.2.c3, bg.2.c2⟩ ⟨x_min, y_min, x_max, y_max⟩
      else acc.2.2 := by
  unfold bboxCompare
  dsimp only
  split_ifs <;> simp_all

lemma bboxCompare_best_reg_target (C : Settings) (qlog : ℚ → ℚ) (aIdx rIdx jy ix : ℕ)
    (x_min x_max y_min y_max : ℚ) (acc : RpnState × Object × ℚ) (bg : ℕ × GtCoords) :
    (bboxCompare C qlog aIdx rIdx jy ix x_min x_max y_min y_max
        acc bg).1.best_reg_target =
      if iou ⟨bg.2.c0, bg.2.c1, bg.2.c3, bg.2.c2⟩ ⟨x_min, y_min, x_max, y_max⟩ >
            C.iou_upper ∧
          iou ⟨bg.2.c0, bg.2.c1, bg.2.c3, bg.2.c2⟩ ⟨x_min, y_min, x_max, y_max⟩ >
            acc.2.2 then
        regTargetOf qlog bg.2 x_min x_max y_min y_max
      else acc.1.best_reg_target := by
  unfold bboxCompare
  dsimp only
  split_ifs <;> simp_all

/-- Refuting the enumeration-order part of **C3** at a concrete feature
map: on a 2x2 grid the loops of `labeling.py` lines 242-250 visit the
cells column-outer (`(0,0), (0,1), (1,0), (1,1)` as `(ix, jy)` pairs),
not in the claimed row-outer order (`(0,0), (1,0), (0,1), (1,1)`). -/
theorem scan_order_counterexample :
    anchorVisitOrder 2 2 = [(0, 0), (0, 1), (1, 0), (1, 1)] ∧
    specScanOrder 2 2 = [(0, 0), (1, 0), (0, 1), (1, 1)] ∧
    anchorVisitOrder 2 2 ≠ specScanOrder 2 2 := by
  refine ⟨?_, ?_, ?_⟩ <;> decide

/-- **C3** (amended).  Both best-IoU accumulators are updated only on a
strict greater-than comparison — an anchor whose IoU merely equals the
running best changes nothing, so the first anchor in scan order to reach
the final best IoU remains the recorded best match — and the scan
enumerates the cells of each anchor shape in the fixed order: anchor
shape outermost, then column (`ix`), then row (`jy`). -/
theorem best_match_strict_updates_and_scan_order (C : Settings) (qlog : ℚ → ℚ)
    (aIdx rIdx jy ix : ℕ) (x_min x_max y_min y_max : ℚ)
    (acc : RpnState × Object × ℚ) (bg : ℕ × GtCoords) :
    ((bboxStep C qlog aIdx rIdx jy ix x_min x_max y_min y_max
        acc bg).1.best_iou_for_bbox =
      if iou ⟨bg.2.c0, bg.2.c1, bg.2.c3, bg.2.c2⟩ ⟨x_min, y_min, x_max, y_max⟩ >
          acc.1.best_iou_for_bbox bg.1 then
        upd1 acc.1.best_iou_for_bbox bg.1
          (iou ⟨bg.2.c0, bg.2.c1, bg.2.c3, bg.2.c2⟩ ⟨x_min, y_min, x_max, y_max⟩)
      else acc.1.best_iou_for_bbox) ∧
    ((bboxStep C qlog aIdx rIdx jy ix x_min x_max y_min y_max
        acc bg).1.best_anchor_for_bbox =
      if iou ⟨bg.2.c0, bg.2.c1, bg.2.c3, bg.2.c2⟩ ⟨x_min, y_min, x_max, y_max⟩ >
          acc.1.best_iou_for_bbox bg.1 then
        upd1 acc.1.best_anchor_for_bbox bg.1 ((jy : ℤ), (ix : ℤ), (aIdx : ℤ), (rIdx : ℤ))
      else acc.1.best_anchor_for_bbox) ∧
    ((bboxStep C qlog aIdx rIdx jy ix x_min x_max y_min y_max acc bg).2.2 =
      if iou ⟨bg.2.c0, bg.2.c1, bg.2.c3, bg.2.c2⟩ ⟨x_min, y_min, x_max, y_max⟩ >
            C.iou_upper ∧
          iou ⟨bg.2.c0, bg.2.c1, bg.2.c3, bg.2.c2⟩ ⟨x_min, y_min, x_max, y_max⟩ >
            acc.2.2 then
        iou ⟨bg.2.c0, bg.2.c1, bg.2.c3, bg.2.c2⟩ ⟨x_min, y_min, x_max, y_max⟩
      else acc.2.2) ∧
    (∀ (gts : List GtCoords) (fW fH : ℕ) (anchor_width anchor_height : ℚ)
        (s : RpnState),
      ratioLoop C qlog gts fW fH aIdx rIdx anchor_width anchor_height s =
        (anchorVisitOrder fW fH).foldl
          (cellStep C qlog gts aIdx rIdx anchor_width anchor_height) s) := by
  have hbk := writeCell_bookkeeping C aIdx rIdx jy ix
    (bboxCompare C qlog aIdx rIdx jy ix x_min x_max y_min y_max acc bg)
  refine ⟨?_, ?_, ?_, ?_⟩
  · rw [show (bboxStep C qlog aIdx rIdx jy ix x_min x_max y_min y_max
        acc bg).1.best_iou_for_bbox =
        (bboxCompare C qlog aIdx rIdx jy ix x_min x_max y_min y_max
          acc bg).1.best_iou_for_bbox from hbk.2.1]
    exact bboxCompare_best_iou C qlog aIdx rIdx jy ix x_min x_max y_min y_max acc bg
  · rw [show (bboxStep C qlog aIdx rIdx jy ix x_min x_max y_min y_max
        acc bg).1.best_anchor_for_bbox =
        (bboxCompare C qlog aIdx rIdx jy ix x_min x_max y_min y_max
          acc bg).1.best_anchor_for_bbox from hbk.1]
    exact bboxCompare_best_anchor C qlog aIdx rIdx jy ix x_min x_max y_min y_max acc bg
  · rw [show (bboxStep C qlog aIdx rIdx jy ix x_min x_max y_min y_max acc bg).2.2 =
        (bboxCompare C qlog aIdx rIdx jy ix x_min x_max y_min y_max acc bg).2.2 from
        congrArg Prod.snd hbk.2.2.2.2.2]
    exact bboxCompare_best_loc C qlog aIdx rIdx jy ix x_min x_max y_min y_max acc bg
  · exact fun gts fW fH anchor_width anchor_height s =>
      ratioLoop_eq_visit_foldl C qlog gts fW fH aIdx rIdx anchor_width anchor_height s

/-- Pixel width of the anchor shape with scale index `aIdx` and ratio
index `rIdx` (`labeling.py` line 238). -/
def shapeW (C : Settings) (aIdx rIdx : ℕ) : ℚ :=
  C.anchor_box_scales.getD aIdx 0 * (C.anchor_box_ratios.getD rIdx (0, 0)).1

/-- Pixel height of the anchor shape with scale index `aIdx` and ratio
index `rIdx` (`labeling.py` line 239). -/
def shapeH (C : Settings) (aIdx rIdx : ℕ) : ℚ :=
  C.anchor_box_scales.getD aIdx 0 * (C.anchor_box_ratios.getD rIdx (0, 0)).2

/-- The skip condition of `labeling.py` lines 248 and 254: the anchor's
pixel box leaves the resized image on some side. -/
def outOfBounds (C : Settings) (anchor_width anchor_height : ℚ) (ix jy : ℕ) : Prop :=
  anchorXmin C ix anchor_width < 0 ∨
  anchorXmax C ix anchor_width > C.resized_img_width ∨
  anchorYmin C jy anchor_height < 0 ∨
  anchorYmax C jy anchor_height > C.resized_img_height

/-- A recorded best-match row designates an in-bounds anchor of an
existing shape. -/
def GoodBest (C : Settings) (ba : ℤ × ℤ × ℤ × ℤ) : Prop :=
  ∃ jy ix aIdx rIdx : ℕ,
    ba = ((jy : ℤ), (ix : ℤ), (aIdx : ℤ), (rIdx : ℤ)) ∧
    aIdx < C.anchor_box_scales.length ∧ rIdx < C.anchor_box_ratios.length ∧
    ¬ outOfBounds C (shapeW C aIdx rIdx) (shapeH C aIdx rIdx) ix jy

/-- The out-of-bounds invariant: every out-of-bounds anchor's cell still
holds the default zero labels, and every recorded best match designates
an in-bounds anchor. -/
def OobState (C : Settings) (s : RpnState) : Prop :=
  (∀ aIdx rIdx ix jy : ℕ, aIdx < C.anchor_box_scales.length →
    rIdx < C.anchor_box_ratios.length →
    outOfBounds C (shapeW C aIdx rIdx) (shapeH C aIdx rIdx) ix jy →
    s.y_is_valid jy ix (rIdx + aIdx * C.anchor_box_ratios.length) = 0 ∧
    s.y_is_obj jy ix (rIdx + aIdx * C.anchor_box_ratios.length) = 0) ∧
  (∀ b : ℕ, (s.best_anchor_for_bbox b).1 ≠ -1 → GoodBest C (s.best_anchor_for_bbox b))

/-- The composite anchor index `r + a * R` with `r < R` determines both
the ratio index and the scale index. -/
lemma composite_index_inj {R r r' a a' : ℕ} (hr : r < R) (hr' : r' < R)
    (h : r + a * R = r' + a' * R) : r = r' ∧ a = a' := by
  have hR : 0 < R := Nat.pos_of_ne_zero (by omega)
  have h1 : (r + a * R) % R = r := by
    rw [Nat.add_mul_mod_self_right]
    exact Nat.mod_eq_of_lt hr
  have h2 : (r' + a' * R) % R = r' := by
    rw [Nat.add_mul_mod_self_right]
    exact Nat.mod_eq_of_lt hr'
  have hrr : r = r' := by rw [← h1, ← h2, h]
  refine ⟨hrr, ?_⟩
  have : a * R = a' * R := by omega
  exact Nat.eq_of_mul_eq_mul_right hR this

/-- A write at an in-bounds anchor's cell never lands on the cell of an
out-of-bounds anchor. -/
lemma inb_write_misses_oob_cell (C : Settings) {aIdx rIdx ix jy a' r' i' j' : ℕ}
    (hr : rIdx < C.anchor_box_ratios.length) (hr' : r' < C.anchor_box_ratios.length)
    (hin : ¬ outOfBounds C (shapeW C aIdx rIdx) (shapeH C aIdx rIdx) ix jy)
    (hoob : outOfBounds C (shapeW C a' r') (shapeH C a' r') i' j') :
    ¬(j' = jy ∧ i' = ix ∧
      r' + a' * C.anchor_box_ratios.length = rIdx + aIdx * C.anchor_box_ratios.length) := by
  rintro ⟨hj, hi, hk⟩
  obtain ⟨hre, hae⟩ := composite_index_inj hr' hr hk
  subst hj hi hre hae
  exact hin hoob

/-- Membership in `enum` gives the index bound and the `getD` value. -/
lemma enum_mem_getD {α : Type} [Inhabited α] (l : List α) (d : α) (p : ℕ × α)
    (hp : p ∈ l.enum) : p.1 < l.length ∧ l.getD p.1 d = p.2 := by
  have h2 := List.mk_mem_enum_iff_getElem?.mp hp
  obtain ⟨hi, he⟩ := List.getElem?_eq_some.mp h2
  refine ⟨hi, ?_⟩
  rw [List.getD_eq_getElem l d hi]
  exact he

lemma bboxStep_preserves_oob (C : Settings) (qlog : ℚ → ℚ) (aIdx rIdx jy ix : ℕ)
    (x_min x_max y_min y_max : ℚ) (acc : RpnState × Object × ℚ) (bg : ℕ × GtCoords)
    (ha : aIdx < C.anchor_box_scales.length) (hr : rIdx < C.anchor_box_ratios.length)
    (hin : ¬ outOfBounds C (shapeW C aIdx rIdx) (shapeH C aIdx rIdx) ix jy)
    (h : OobState C acc.1) :
    OobState C (bboxStep C qlog aIdx rIdx jy ix x_min x_max y_min y_max acc bg).1 := by
  set c := bboxCompare C qlog aIdx rIdx jy ix x_min x_max y_min y_max acc bg with hc
  have htens := bboxCompare_tensors C qlog aIdx rIdx jy ix x_min x_max y_min y_max acc bg
  constructor
  · intro a' r' i' j' ha' hr' hoob
    have hne := inb_write_misses_oob_cell C hr hr' hin hoob
    constructor
    · rw [show (bboxStep C qlog aIdx rIdx jy ix x_min x_max y_min y_max
          acc bg).1.y_is_valid = _ from writeCell_valid C aIdx rIdx jy ix c]
      rw [upd3_ne _ _ _ _ _ _ _ _ hne]
      rw [show c.1.y_is_valid = acc.1.y_is_valid from htens.1]
      exact (h.1 a' r' i' j' ha' hr' hoob).1
    · rw [show (bboxStep C qlog aIdx rIdx jy ix x_min x_max y_min y_max
          acc bg).1.y_is_obj = _ from writeCell_obj C aIdx rIdx jy ix c]
      rw [upd3_ne _ _ _ _ _ _ _ _ hne]
      rw [show c.1.y_is_obj = acc.1.y_is_obj from htens.2.1]
      exact (h.1 a' r' i' j' ha' hr' hoob).2
  · intro b hb
    rw [show (bboxStep C qlog aIdx rIdx jy ix x_min x_max y_min y_max
        acc bg).1.best_anchor_for_bbox = c.1.best_anchor_for_bbox from
        (writeCell_bookkeeping C aIdx rIdx jy ix c).1] at hb ⊢
    rw [bboxCompare_best_anchor C qlog aIdx rIdx jy ix x_min x_max y_min y_max
      acc bg] at hb ⊢
    split_ifs at hb ⊢ with hcond
    · unfold upd1 at hb ⊢
      by_cases hbb : b = bg.1
      · rw [if_pos hbb]
        exact ⟨jy, ix, aIdx, rIdx, rfl, ha, hr, hin⟩
      · rw [if_neg hbb] at hb ⊢
        exact h.2 b hb
    · exact h.2 b hb

lemma ratioLoop_preserves_oob (C : Settings) (qlog : ℚ → ℚ) (gts : List GtCoords)
    (fW fH aIdx rIdx : ℕ)
    (ha : aIdx < C.anchor_box_scales.length) (hr : rIdx < C.anchor_box_ratios.length)
    (s : RpnState) (hs : OobState C s) :
    OobState C (ratioLoop C qlog gts fW fH aIdx rIdx
      (shapeW C aIdx rIdx) (shapeH C aIdx rIdx) s) := by
  unfold ratioLoop
  refine foldl_preserve (OobState C) _ (List.range fW) s (fun a ix _ hA => ?_) hs
  dsimp only
  split_ifs with hxx
  · exact hA
  · refine foldl_preserve (OobState C) _ (List.range fH) a (fun a2 jy _ hA2 => ?_) hA
    dsimp only
    split_ifs with hyy
    · exact hA2
    · unfold anchorFoldResult
      refine foldl_preserve (fun (acc : RpnState × Object × ℚ) => OobState C acc.1) _
        gts.enum _ (fun a3 bg _ hA3 => ?_) hA2
      refine bboxStep_preserves_oob C qlog aIdx rIdx jy ix _ _ _ _ a3 bg ha hr ?_ hA3
      intro hoob
      rcases hoob with hh | hh | hh | hh
      · exact hxx (Or.inl hh)
      · exact hxx (Or.inr hh)
      · exact hyy (Or.inl hh)
      · exact hyy (Or.inr hh)

lemma repairStep_preserves_oob (C : Settings) (s : RpnState) (b : ℕ)
    (h : OobState C s) : OobState C (repairStep C s b) := by
  by_cases h1 : s.n_anchors_per_bbox b = 0
  · by_cases h2 : (s.best_anchor_for_bbox b).1 ≠ -1
    · obtain ⟨jy, ix, aIdx, rIdx, hba, ha, hr, hin⟩ := h.2 b h2
      have hy : (s.best_anchor_for_bbox b).1.toNat = jy := by
        rw [hba]; exact Int.toNat_natCast jy
      have hx2 : (s.best_anchor_for_bbox b).2.1.toNat = ix := by
        rw [hba]; exact Int.toNat_natCast ix
      have ha2 : (s.best_anchor_for_bbox b).2.2.1.toNat = aIdx := by
        rw [hba]; exact Int.toNat_natCast aIdx
      have hr2 : (s.best_anchor_for_bbox b).2.2.2.toNat = rIdx := by
        rw [hba]; exact Int.toNat_natCast rIdx
      rw [repairStep_fires C s b h1 h2]
      constructor
      · intro a' r' i' j' ha' hr' hoob
        dsimp only
        rw [hy, hx2, ha2, hr2]
        have hne := inb_write_misses_oob_cell C hr hr' hin hoob
        constructor
        · rw [upd3_ne _ _ _ _ _ _ _ _ hne]
          exact (h.1 a' r' i' j' ha' hr' hoob).1
        · rw [upd3_ne _ _ _ _ _ _ _ _ hne]
          exact (h.1 a' r' i' j' ha' hr' hoob).2
      · intro b' hb'
        exact h.2 b' hb'
    · unfold repairStep
      rw [if_pos h1, if_neg h2]
      exact h
  · unfold repairStep
    rw [if_neg h1]
    exact h

lemma repairPass_preserves_oob (C : Settings) (num : ℕ) (s : RpnState)
    (h : OobState C s) : OobState C (repairPass C num s) := by
  unfold repairPass
  exact foldl_preserve (OobState C) _ (List.range num) s
    (fun a b _ hA => repairStep_preserves_oob C a b hA) h

lemma scaleStep_preserves_oob (C : Settings) (qlog : ℚ → ℚ) (gts : List GtCoords)
    (fW fH : ℕ) (s : RpnState) (ap : ℕ × ℚ)
    (hap : ap ∈ C.anchor_box_scales.enum) (hs : OobState C s) :
    OobState C (scaleStep C qlog gts fW fH s ap) := by
  unfold scaleStep
  apply repairPass_preserves_oob
  refine foldl_preserve (OobState C) _ C.anchor_box_ratios.enum s
    (fun a rp hrp hA => ?_) hs
  unfold ratioStep
  obtain ⟨haI, haV⟩ := enum_mem_getD C.anchor_box_scales 0 ap hap
  obtain ⟨hrI, hrV⟩ := enum_mem_getD C.anchor_box_ratios (0, 0) rp hrp
  have hw : ap.2 * rp.2.1 = shapeW C ap.1 rp.1 := by
    unfold shapeW
    rw [haV, hrV]
  have hh : ap.2 * rp.2.2 = shapeH C ap.1 rp.1 := by
    unfold shapeH
    rw [haV, hrV]
  rw [hw, hh]
  exact ratioLoop_preserves_oob C qlog gts fW fH ap.1 rp.1 haI hrI a hA

lemma initState_oob (C : Settings) : OobState C initState := by
  constructor
  · intro _ _ _ _ _ _ _
    exact ⟨rfl, rfl⟩
  · intro b hb
    exact absurd rfl hb

/-- **C8.** An anchor shape/location whose pixel box leaves the resized
image bounds on any side (`x_min < 0`, `x_max > resized_width`,
`y_min < 0`, or `y_max > resized_height`) is skipped entirely: the final
output tensors of `get_image_rpns` hold `valid = 0` and `objectness = 0`
at its `(row, column, composite_anchor_index)` cell — neither the grid
scan nor the repair pass (whose recorded best matches only ever designate
in-bounds anchors) writes to it. -/
theorem out_of_bounds_anchor_never_labeled (C : Settings) (qlog : ℚ → ℚ)
    (orig_width orig_height : ℚ) (dimfn : ℚ → ℚ → ℕ × ℕ) (image_info : List RawBox)
    (aIdx rIdx ix jy : ℕ)
    (ha : aIdx < C.anchor_box_scales.length) (hr : rIdx < C.anchor_box_ratios.length)
    (hoob : outOfBounds C (shapeW C aIdx rIdx) (shapeH C aIdx rIdx) ix jy) :
    (get_image_rpns C qlog orig_width orig_height dimfn image_info).y_is_valid
        jy ix (rIdx + aIdx * C.anchor_box_ratios.length) = 0 ∧
    (get_image_rpns C qlog orig_width orig_height dimfn image_info).y_is_obj
        jy ix (rIdx + aIdx * C.anchor_box_ratios.length) = 0 := by
  have hrun : OobState C (get_image_rpns C qlog orig_width orig_height dimfn
      image_info) := by
    unfold get_image_rpns
    exact foldl_preserve (OobState C) _ C.anchor_box_scales.enum initState
      (fun a ap hap hA => scaleStep_preserves_oob C qlog _ _ _ a ap hap hA)
      (initState_oob C)
  exact hrun.1 aIdx rIdx ix jy ha hr hoob

/-- Witness for C8: with stride 16 on a 16x16 resized image, the 16x16
anchor at column 1 has `x_max = 32 > 16` and its cell stays zero. -/
theorem out_of_bounds_anchor_never_labeled_witness :
    (get_image_rpns cfgA qlog0 16 16 (fun _ _ => (1, 1)) [⟨0, 0, 8, 16⟩]).y_is_valid
        0 1 (0 + 0 * cfgA.anchor_box_ratios.length) = 0 ∧
    (get_image_rpns cfgA qlog0 16 16 (fun _ _ => (1, 1)) [⟨0, 0, 8, 16⟩]).y_is_obj
        0 1 (0 + 0 * cfgA.anchor_box_ratios.length) = 0 :=
  out_of_bounds_anchor_never_labeled cfgA qlog0 16 16 (fun _ _ => (1, 1))
    [⟨0, 0, 8, 16⟩] 0 0 1 0
    (by norm_num [cfgA]) (by norm_num [cfgA])
    (by norm_num [outOfBounds, anchorXmin, anchorXmax, anchorYmin, anchorYmax,
      shapeW, shapeH, cfgA])

lemma repairPass_bookkeeping (C : Settings) (num : ℕ) (s : RpnState) :
    (repairPass C num s).best_anchor_for_bbox = s.best_anchor_for_bbox ∧
    (repairPass C num s).best_targets_for_bbox = s.best_targets_for_bbox ∧
    (repairPass C num s).n_anchors_per_bbox = s.n_anchors_per_bbox := by
  unfold repairPass
  refine foldl_preserve
    (fun x => x.best_anchor_for_bbox = s.best_anchor_for_bbox ∧
      x.best_targets_for_bbox = s.best_targets_for_bbox ∧
      x.n_anchors_per_bbox = s.n_anchors_per_bbox)
    _ (List.range num) s (fun a b _ hA => ?_) ⟨rfl, rfl, rfl⟩
  have hb := repairStep_bookkeeping C a b
  exact ⟨hb.1.trans hA.1, hb.2.2.1.trans hA.2.1, hb.2.2.2.trans hA.2.2⟩

/-- Folding the repair step over a list containing `b` force-assigns `b`'s
recorded best-match anchor cell to `valid = 1`, `objectness = 1` when `b`
has a recorded best match and a zero positive-anchor counter. -/
lemma repair_fold_assigns (C : Settings) :
    ∀ (l : List ℕ) (s : RpnState) (b : ℕ), b ∈ l →
      s.n_anchors_per_bbox b = 0 → (s.best_anchor_for_bbox b).1 ≠ -1 →
      (l.foldl (repairStep C) s).y_is_valid (s.best_anchor_for_bbox b).1.toNat
          (s.best_anchor_for_bbox b).2.1.toNat
          ((s.best_anchor_for_bbox b).2.2.2.toNat +
            (s.best_anchor_for_bbox b).2.2.1.toNat * C.anchor_box_ratios.length) = 1 ∧
      (l.foldl (repairStep C) s).y_is_obj (s.best_anchor_for_bbox b).1.toNat
          (s.best_anchor_for_bbox b).2.1.toNat
          ((s.best_anchor_for_bbox b).2.2.2.toNat +
            (s.best_anchor_for_bbox b).2.2.1.toNat * C.anchor_box_ratios.length) = 1 := by
  intro l
  induction l with
  | nil => exact fun s b hb => absurd hb (List.not_mem_nil b)
  | cons y t ih =>
      intro s b hb hn hbest
      rw [List.foldl_cons]
      rcases List.mem_cons.mp hb with hby | hbt
      · subst hby
        have hfire := repairStep_fires C s b hn hbest
        have hcell1 : (repairStep C s b).y_is_valid (s.best_anchor_for_bbox b).1.toNat
            (s.best_anchor_for_bbox b).2.1.toNat
            ((s.best_anchor_for_bbox b).2.2.2.toNat +
              (s.best_anchor_for_bbox b).2.2.1.toNat * C.anchor_box_ratios.length) = 1 := by
          rw [hfire]
          exact upd3_same _ _ _ _ _
        have hcell2 : (repairStep C s b).y_is_obj (s.best_anchor_for_bbox b).1.toNat
            (s.best_anchor_for_bbox b).2.1.toNat
            ((s.best_anchor_for_bbox b).2.2.2.toNat +
              (s.best_anchor_for_bbox b).2.2.1.toNat * C.anchor_box_ratios.length) = 1 := by
          rw [hfire]
          exact upd3_same _ _ _ _ _
        constructor
        · exact foldl_preserve
            (fun x => x.y_is_valid (s.best_anchor_for_bbox b).1.toNat
              (s.best_anchor_for_bbox b).2.1.toNat
              ((s.best_anchor_for_bbox b).2.2.2.toNat +
                (s.best_anchor_for_bbox b).2.2.1.toNat *
                  C.anchor_box_ratios.length) = 1)
            (repairStep C) t _ (fun a bb _ hA => repairStep_mono_valid C a bb _ _ _ hA)
            hcell1
        · exact foldl_preserve
            (fun x => x.y_is_obj (s.best_anchor_for_bbox b).1.toNat
              (s.best_anchor_for_bbox b).2.1.toNat
              ((s.best_anchor_for_bbox b).2.2.2.toNat +
                (s.best_anchor_for_bbox b).2.2.1.toNat *
                  C.anchor_box_ratios.length) = 1)
            (repairStep C) t _ (fun a bb _ hA => repairStep_mono_obj C a bb _ _ _ hA)
            hcell2
      · have hbk := repairStep_bookkeeping C s y
        have hn' : (repairStep C s y).n_anchors_per_bbox b = 0 := by
          rw [hbk.2.2.2]
          exact hn
        have hbest' : ((repairStep C s y).best_anchor_for_bbox b).1 ≠ -1 := by
          rw [hbk.1]
          exact hbest
        have hres := ih (repairStep C s y) b hbt hn' hbest'
        rw [hbk.1] at hres
        exact hres

/-- Unless the anchor-scale list is empty, the last thing `get_image_rpns`
executes is a repair pass over all ground-truth box indices. -/
lemma run_ends_with_repair (C : Settings) (qlog : ℚ → ℚ)
    (orig_width orig_height : ℚ) (dimfn : ℚ → ℚ → ℕ × ℕ) (image_info : List RawBox) :
    get_image_rpns C qlog orig_width orig_height dimfn image_info = initState ∨
    ∃ S : RpnState,
      get_image_rpns C qlog orig_width orig_height dimfn image_info =
        repairPass C (image_info.map (normalizeGt C orig_width orig_height)).length S := by
  unfold get_image_rpns
  rcases foldl_ne_nil_decomp
      (scaleStep C qlog (image_info.map (normalizeGt C orig_width orig_height))
        (dimfn C.resized_img_width C.resized_img_height).1
        (dimfn C.resized_img_width C.resized_img_height).2)
      C.anchor_box_scales.enum initState with hnil | ⟨a, x, _, he⟩
  · left
    rw [hnil]
    rfl
  · right
    refine ⟨(C.anchor_box_ratios.enum).foldl
      (ratioStep C qlog (image_info.map (normalizeGt C orig_width orig_height))
        (dimfn C.resized_img_width C.resized_img_height).1
        (dimfn C.resized_img_width C.resized_img_height).2 x.1 x.2) a, ?_⟩
    rw [he]
    rfl

/-- **C1.** The repair pass: (a) for any state, a ground-truth box whose
positive-anchor counter is zero and whose best-match record is set
(sentinel `-1` absent) gets its best-match anchor's cell force-assigned to
`valid = 1`, `objectness = 1` with its recorded regression target written,
overriding whatever the cell held; and (b) in the final output of
`get_image_rpns`, every ground-truth box with a recorded best match and a
zero counter has `valid = 1` and `objectness = 1` at its recorded
best-match anchor cell — i.e. every such box ends associated with at
least one positive anchor. -/
theorem repair_pass_guarantees_positive_anchor (C : Settings) (qlog : ℚ → ℚ)
    (orig_width orig_height : ℚ) (dimfn : ℚ → ℚ → ℕ × ℕ) (image_info : List RawBox) :
    (∀ (s : RpnState) (b : ℕ), s.n_anchors_per_bbox b = 0 →
      (s.best_anchor_for_bbox b).1 ≠ -1 →
      repairStep C s b =
        { s with
          y_is_valid := upd3 s.y_is_valid (s.best_anchor_for_bbox b).1.toNat
            (s.best_anchor_for_bbox b).2.1.toNat
            ((s.best_anchor_for_bbox b).2.2.2.toNat +
              (s.best_anchor_for_bbox b).2.2.1.toNat * C.anchor_box_ratios.length) 1
          y_is_obj := upd3 s.y_is_obj (s.best_anchor_for_bbox b).1.toNat
            (s.best_anchor_for_bbox b).2.1.toNat
            ((s.best_anchor_for_bbox b).2.2.2.toNat +
              (s.best_anchor_for_bbox b).2.2.1.toNat * C.anchor_box_ratios.length) 1
          y_rpn_reg := writeReg s.y_rpn_reg (s.best_anchor_for_bbox b).1.toNat
            (s.best_anchor_for_bbox b).2.1.toNat
            (4 * ((s.best_anchor_for_bbox b).2.2.2.toNat +
              (s.best_anchor_for_bbox b).2.2.1.toNat * C.anchor_box_ratios.length))
            (s.best_targets_for_bbox b) }) ∧
    (∀ b : ℕ, b < image_info.length →
      (get_image_rpns C qlog orig_width orig_height dimfn
        image_info).n_anchors_per_bbox b = 0 →
      ((get_image_rpns C qlog orig_width orig_height dimfn
        image_info).best_anchor_for_bbox b).1 ≠ -1 →
      (get_image_rpns C qlog orig_width orig_height dimfn image_info).y_is_valid
          ((get_image_rpns C qlog orig_width orig_height dimfn
            image_info).best_anchor_for_bbox b).1.toNat
          ((get_image_rpns C qlog orig_width orig_height dimfn
            image_info).best_anchor_for_bbox b).2.1.toNat
          (((get_image_rpns C qlog orig_width orig_height dimfn
            image_info).best_anchor_for_bbox b).2.2.2.toNat +
            ((get_image_rpns C qlog orig_width orig_height dimfn
              image_info).best_anchor_for_bbox b).2.2.1.toNat *
              C.anchor_box_ratios.length) = 1 ∧
      (get_image_rpns C qlog orig_width orig_height dimfn image_info).y_is_obj
          ((get_image_rpns C qlog orig_width orig_height dimfn
            image_info).best_anchor_for_bbox b).1.toNat
          ((get_image_rpns C qlog orig_width orig_height dimfn
            image_info).best_anchor_for_bbox b).2.1.toNat
          (((get_image_rpns C qlog orig_width orig_height dimfn
            image_info).best_anchor_for_bbox b).2.2.2.toNat +
            ((get_image_rpns C qlog orig_width orig_height dimfn
              image_info).best_anchor_for_bbox b).2.2.1.toNat *
              C.anchor_box_ratios.length) = 1) := by
  refine ⟨fun s b hn hb => repairStep_fires C s b hn hb, fun b hblen hn hbest => ?_⟩
  rcases run_ends_with_repair C qlog orig_width orig_height dimfn image_info with
    hR | ⟨S, hR⟩
  · rw [hR] at hbest
    exact absurd rfl hbest
  · have hlen : (image_info.map (normalizeGt C orig_width orig_height)).length =
        image_info.length := List.length_map _ _
    have hbk := repairPass_bookkeeping C
      (image_info.map (normalizeGt C orig_width orig_height)).length S
    rw [hR] at hn hbest ⊢
    rw [hbk.2.2] at hn
    rw [hbk.1] at hbest ⊢
    have hmem : b ∈ List.range
        (image_info.map (normalizeGt C orig_width orig_height)).length := by
      rw [List.mem_range, hlen]
      exact hblen
    have hres := repair_fold_assigns C
      (List.range (image_info.map (normalizeGt C orig_width orig_height)).length)
      S b hmem hn hbest
    exact hres

/-- Witness for C1: a ground-truth box overlapping the single anchor with
IoU below the upper threshold — the scan leaves its counter at zero, and
the repair pass marks the recorded best anchor positive. -/
theorem repair_pass_guarantees_positive_anchor_witness :
    (get_image_rpns cfgA qlog0 16 16 (fun _ _ => (1, 1)) [⟨0, 0, 8, 16⟩]).y_is_valid
        ((get_image_rpns cfgA qlog0 16 16 (fun _ _ => (1, 1))
          [⟨0, 0, 8, 16⟩]).best_anchor_for_bbox 0).1.toNat
        ((get_image_rpns cfgA qlog0 16 16 (fun _ _ => (1, 1))
          [⟨0, 0, 8, 16⟩]).best_anchor_for_bbox 0).2.1.toNat
        (((get_image_rpns cfgA qlog0 16 16 (fun _ _ => (1, 1))
          [⟨0, 0, 8, 16⟩]).best_anchor_for_bbox 0).2.2.2.toNat +
          ((get_image_rpns cfgA qlog0 16 16 (fun _ _ => (1, 1))
            [⟨0, 0, 8, 16⟩]).best_anchor_for_bbox 0).2.2.1.toNat *
            cfgA.anchor_box_ratios.length) = 1 ∧
    (get_image_rpns cfgA qlog0 16 16 (fun _ _ => (1, 1)) [⟨0, 0, 8, 16⟩]).y_is_obj
        ((get_image_rpns cfgA qlog0 16 16 (fun _ _ => (1, 1))
          [⟨0, 0, 8, 16⟩]).best_anchor_for_bbox 0).1.toNat
        ((get_image_rpns cfgA qlog0 16 16 (fun _ _ => (1, 1))
          [⟨0, 0, 8, 16⟩]).best_anchor_for_bbox 0).2.1.toNat
        (((get_image_rpns cfgA qlog0 16 16 (fun _ _ => (1, 1))
          [⟨0, 0, 8, 16⟩]).best_anchor_for_bbox 0).2.2.2.toNat +
          ((get_image_rpns cfgA qlog0 16 16 (fun _ _ => (1, 1))
            [⟨0, 0, 8, 16⟩]).best_anchor_for_bbox 0).2.2.1.toNat *
            cfgA.anchor_box_ratios.length) = 1 :=
  (repair_pass_guarantees_positive_anchor cfgA qlog0 16 16 (fun _ _ => (1, 1))
    [⟨0, 0, 8, 16⟩]).2 0 (by norm_num)
    (by norm_num [cfgA, get_image_rpns, scaleStep, ratioStep, ratioLoop, repairPass,
      repairStep, anchorFoldResult, bboxStep, bboxCompare, writeCell, anchorXmin,
      anchorXmax, anchorYmin, anchorYmax, iou, intersectionArea, unionArea, upd3,
      upd1, writeReg, initState, normalizeGt, regTargetOf, qlog0, List.enum,
      List.enumFrom, List.range_succ, min_def, max_def, object_neg_ne_pos,
      object_none_ne_pos])
    (by norm_num [cfgA, get_image_rpns, scaleStep, ratioStep, ratioLoop, repairPass,
      repairStep, anchorFoldResult, bboxStep, bboxCompare, writeCell, anchorXmin,
      anchorXmax, anchorYmin, anchorYmax, iou, intersectionArea, unionArea, upd3,
      upd1, writeReg, initState, normalizeGt, regTargetOf, qlog0, List.enum,
      List.enumFrom, List.range_succ, min_def, max_def, object_neg_ne_pos,
      object_none_ne_pos])

end KuzushijiML
